import Mathlib

/-!
Verification development for the Terraform configuration parser
(src/apps/hello-world/backend/parser.py, with the service-layer directory
check from src/apps/tf-visualizer/backend/api.py).

The Python code is shallowly embedded: parsed HCL structures become a closed
tagged union, the parser object's mutable state becomes an explicit state
record threaded through the extraction functions, and the regular-expression
scans of _find_references are modelled by executable character-list matchers
that reproduce re.findall's left-to-right non-overlapping greedy semantics
for the specific pattern shapes used by the code.
-/

set_option maxRecDepth 10000

/-- Closed union for the dynamically typed nested values produced by hcl2.loads:
a value is a string, a number, a boolean, a mapping or a sequence. -/
inductive Value where
  | str (s : String)
  | num (n : Int)
  | bool (b : Bool)
  | map (m : List (String × Value))
  | list (l : List Value)

/-- A block body: a Python dict from attribute names to values (insertion order kept). -/
abbrev Config := List (String × Value)

/-- One-level keyed block collection (name to body), as used for
module / variable / output / provider blocks. -/
abbrev Blocks := List (String × Config)

/-- Two-level keyed block collection (type to name to body), as used for
resource and data blocks. -/
abbrev TypedBlocks := List (String × Blocks)

/-- Embedding of the dataclass TerraformEntity of parser.py. -/
structure TerraformEntity where
  id : String
  type : String
  category : String
  name : String
  provider : Option String
  attributes : Config
  dependencies : List String
  position : Option (Nat × Nat)

/-- One relationship record, a Python dict with keys source, target and type. -/
structure Relationship where
  source : String
  target : String
  type : String
  deriving DecidableEq

/-- The metadata sub-document of a parse_directory result. -/
structure Metadata where
  total_files : Nat
  total_entities : Nat
  total_relationships : Nat
  deriving DecidableEq

/-- The document returned by parse_directory: entities, relationships, metadata. -/
structure GraphResult where
  entities : List TerraformEntity
  relationships : List Relationship
  metadata : Metadata

/-- The top-level mapping returned by hcl2.loads for one file. A field is none
when the corresponding key is absent from the mapping (the membership tests
at lines 62-83 of parser.py). -/
structure ParsedHcl where
  resource : Option (List TypedBlocks) := none
  data : Option (List TypedBlocks) := none
  module : Option (List Blocks) := none
  «variable» : Option (List Blocks) := none
  output : Option (List Blocks) := none
  provider : Option (List Blocks) := none

/-- A .tf file as seen by _parse_file after the external hcl2.loads boundary:
either it loads to a parsed structure, or loading raises a syntax error
(lark.exceptions.LarkError / json.JSONDecodeError), which _parse_file catches. -/
inductive TfFile where
  | ok (parsed : ParsedHcl)
  | malformed (msg : String)

/-- Mutable state of a TerraformParser object: the directory path given to
__init__, the entities dict (insertion-ordered, keyed by entity id) and the
relationships list. -/
structure TerraformParser where
  terraform_dir : String
  entities : List (String × TerraformEntity)
  relationships : List Relationship

/-- TerraformParser.__init__: empty entities dict, empty relationships list. -/
def TerraformParser.init (terraform_dir : String) : TerraformParser :=
  { terraform_dir := terraform_dir, entities := [], relationships := [] }

/-- The file system visible to the parser: existing directories with the .tf
files below them in rglob order, and existing paths that are not directories. -/
structure FileSystem where
  dirs : List (String × List TfFile)
  files : List String

/-! ### Character-level machinery for the regular expressions of _find_references

The code's patterns all have one of two shapes: a literal followed by
one or two word-character groups separated by literal dots.  For these
shapes, re.findall's leftmost, greedy, non-overlapping semantics amount to:
at each position try to match (a greedy word run must be maximal and, when a
literal dot follows in the pattern, be immediately followed by a dot); on a
match, emit the groups and resume after the match; otherwise advance one
character.  Word characters are modelled as ASCII, matching the inputs the
claims are about. -/

/-- ASCII version of the regex word-character class backslash-w. -/
def wordChar (c : Char) : Bool :=
  c.isAlpha || c.isDigit || c = '_'

/-- Splits off the maximal leading run of word characters. -/
def takeRun : List Char → List Char × List Char
  | [] => ([], [])
  | c :: cs =>
    if wordChar c then
      let p := takeRun cs
      (c :: p.1, p.2)
    else ([], c :: cs)

/-- Matches a literal at the head of the input, returning the remainder. -/
def matchLit : List Char → List Char → Option (List Char)
  | [], cs => some cs
  | _, [] => none
  | l :: ls, c :: cs => if l = c then matchLit ls cs else none

/-- Matches a pattern of shape literal, word-run, dot, word-run at the head of
the input: returns the two captured runs and the remainder after the match. -/
def matchDotted (lit : List Char) (cs : List Char) : Option (List Char × List Char × List Char) :=
  match matchLit lit cs with
  | none => none
  | some r1 =>
    let p1 := takeRun r1
    if p1.1.isEmpty then none
    else
      match p1.2 with
      | '.' :: r3 =>
        let p2 := takeRun r3
        if p2.1.isEmpty then none else some (p1.1, p2.1, p2.2)
      | _ => none

/-- Matches a pattern of shape literal, word-run at the head of the input. -/
def matchSingle (lit : List Char) (cs : List Char) : Option (List Char × List Char) :=
  match matchLit lit cs with
  | none => none
  | some r1 =>
    let p1 := takeRun r1
    if p1.1.isEmpty then none else some (p1.1, p1.2)

/-- Fuelled scan implementing re.findall for the two-group pattern shape. -/
def findallDottedAux (lit : List Char) : Nat → List Char → List (String × String)
  | 0, _ => []
  | Nat.succ n, cs =>
    match cs with
    | [] => []
    | _ :: t =>
      match matchDotted lit cs with
      | some (g1, g2, rest) => (String.mk g1, String.mk g2) :: findallDottedAux lit n rest
      | none => findallDottedAux lit n t

/-- All matches of a literal-dot-run-dot-run pattern, with their two groups. -/
def findallDotted (lit : String) (cs : List Char) : List (String × String) :=
  findallDottedAux lit.data cs.length cs

/-- Fuelled scan implementing re.findall for the one-group pattern shape. -/
def findallSingleAux (lit : List Char) : Nat → List Char → List String
  | 0, _ => []
  | Nat.succ n, cs =>
    match cs with
    | [] => []
    | _ :: t =>
      match matchSingle lit cs with
      | some (g1, rest) => String.mk g1 :: findallSingleAux lit n rest
      | none => findallSingleAux lit n t

/-- All matches of a literal-dot-run pattern, with their group. -/
def findallSingle (lit : String) (cs : List Char) : List String :=
  findallSingleAux lit.data cs.length cs

/-- Fuelled removal of every occurrence of a pattern, left to right and
non-overlapping: the semantics of Python str.replace with empty replacement. -/
def removeAllAux (pat : List Char) : Nat → List Char → List Char
  | 0, cs => cs
  | Nat.succ n, cs =>
    match cs with
    | [] => []
    | c :: t =>
      match matchLit pat cs with
      | some rest => removeAllAux pat n rest
      | none => c :: removeAllAux pat n t

/-- Removes every occurrence of a nonempty pattern from the input. -/
def removeAll (pat : List Char) (cs : List Char) : List Char :=
  removeAllAux pat cs.length cs

/-- Embedding of line 279 of parser.py: text.replace of the interpolation
opener and the closing brace with the empty string. -/
def stripInterp (s : String) : String :=
  String.mk (removeAll "\x7d".data (removeAll "$\x7b".data s.data))

/-- Embedding of resource_type.split with separator underscore, first piece
(lines 96 and 127 of parser.py). -/
def splitHead (s : String) : String :=
  String.mk (s.data.takeWhile (fun c => c ≠ '_'))

/-- First-occurrence deduplication with an accumulator of already-seen items. -/
def dedupAux : List String → List String → List String
  | [], _ => []
  | x :: xs, seen => if x ∈ seen then dedupAux xs seen else x :: dedupAux xs (x :: seen)

/-- Model of Python list(set(xs)): duplicates removed.  CPython's set iteration
order is hash-dependent and unspecified; it is modelled as first-occurrence
order, and every claim settled below depends only on membership and count. -/
def pyDedup (xs : List String) : List String :=
  dedupAux xs []

/-- Embedding of TerraformParser._find_references (parser.py lines 272-317):
strip interpolation delimiters, run the nine regex patterns in order, build
the canonical identifiers, deduplicate. -/
def find_references (text : String) : List String :=
  let t := (stripInterp text).data
  let refs :=
    (findallDotted "aws_" t).map (fun p => "resource.aws_" ++ p.1 ++ "." ++ p.2) ++
    (findallDotted "azurerm_" t).map (fun p => "resource.azurerm_" ++ p.1 ++ "." ++ p.2) ++
    (findallDotted "google_" t).map (fun p => "resource.google_" ++ p.1 ++ "." ++ p.2) ++
    (findallDotted "resource." t).map (fun p => "resource." ++ p.1 ++ "." ++ p.2) ++
    (findallDotted "data." t).map (fun p => "data." ++ p.1 ++ "." ++ p.2) ++
    (findallSingle "module." t).map (fun g => "module." ++ g) ++
    (findallSingle "var." t).map (fun g => "var." ++ g) ++
    (findallSingle "local." t).map (fun g => "local." ++ g) ++
    (findallSingle "output." t).map (fun g => "output." ++ g)
  pyDedup refs

/-! ### Python dict operations on insertion-ordered association lists -/

/-- Lookup in a Python dict modelled as an insertion-ordered association list. -/
def alookup {α : Type} : List (String × α) → String → Option α
  | [], _ => none
  | (k, v) :: rest, key => if k = key then some v else alookup rest key

/-- The key list of an association list. -/
def keysOf {α : Type} (m : List (String × α)) : List String :=
  m.map Prod.fst

/-- Python dict assignment d[k] = v: replace in place when the key is present,
append at the end otherwise. -/
def dictInsert {α : Type} (m : List (String × α)) (k : String) (v : α) : List (String × α) :=
  if k ∈ keysOf m then m.map (fun p => if p.1 = k then (k, v) else p) else m ++ [(k, v)]

/-- A sequence of dict assignments, first to last. -/
def dictInserts {α : Type} (m : List (String × α)) (l : List (String × α)) : List (String × α) :=
  l.foldl (fun m p => dictInsert m p.1 p.2) m

/-! ### Dependency extraction -/

/-- String-valued items of a Python iteration over a value, as used for the
explicit depends_on list (parser.py lines 245-248): for a list, its items that
are strings; for a string, its characters (each a one-character string); for a
dict, its keys.  Iterating a number or boolean raises an uncaught TypeError in
the source (the except clause at parser.py line 85 catches only LarkError and
JSONDecodeError), aborting the whole parse_directory call; that crash is
modelled separately and faithfully by extract_dependencies_raises below, and
the pure value returned here (like every pure function of this pipeline)
describes the call on exactly the inputs where that predicate is false. -/
def dependsOnItems : Value → List String
  | Value.list l => l.filterMap (fun v => match v with | Value.str s => some s | _ => none)
  | Value.str s => s.data.map (fun c => String.mk [c])
  | Value.map m => keysOf m
  | _ => []

/-- The verbatim string entries of a block's explicit depends_on attribute
(parser.py lines 244-248). -/
def dependsOnStrings (config : Config) : List String :=
  match alookup config "depends_on" with
  | some v => dependsOnItems v
  | none => []

mutual

/-- The reference scan of the loop at parser.py lines 251-268, over the
values of a block body in insertion order. -/
def valuesDeps (config : Config) : List String :=
  match config with
  | [] => []
  | (_, v) :: rest => valueDeps v ++ valuesDeps rest

/-- One attribute value: strings are scanned for references, dicts are
recursed into via _extract_dependencies (whose body is inlined here so that
the mutual recursion is structural; extract_dependencies below is
definitionally equal to it), lists are walked one level. -/
def valueDeps (v : Value) : List String :=
  match v with
  | Value.str s => find_references s
  | Value.map m => pyDedup (dependsOnStrings m ++ valuesDeps m)
  | Value.list l => listDeps l
  | Value.num _ => []
  | Value.bool _ => []

/-- Items of a list value (parser.py lines 262-268): string items are scanned,
dict items are recursed into via the inlined _extract_dependencies body, any
other item - including a nested list - is skipped. -/
def listDeps (items : List Value) : List String :=
  match items with
  | [] => []
  | Value.str s :: rest => find_references s ++ listDeps rest
  | Value.map m :: rest => pyDedup (dependsOnStrings m ++ valuesDeps m) ++ listDeps rest
  | _ :: rest => listDeps rest

end

/-- Embedding of TerraformParser._extract_dependencies (parser.py lines
240-270): verbatim string entries of depends_on, then a scan over every
attribute value (including depends_on itself), deduplicated at the end. -/
def extract_dependencies (config : Config) : List String :=
  pyDedup (dependsOnStrings config ++ valuesDeps config)

/-! ### The uncaught TypeError path of _extract_dependencies

Iterating a number- or boolean-valued depends_on attribute (parser.py line
246) raises a TypeError that no except clause catches - parser.py line 85
catches only lark.exceptions.LarkError and json.JSONDecodeError - so the whole
parse_directory call aborts.  The predicates below mirror the recursion of
_extract_dependencies exactly and are true precisely when its Python
evaluation raises; the pure extraction functions of this file describe the
call on the inputs where they are false. -/

/-- Whether the depends_on iteration of one block body raises: true exactly
when the block has a depends_on key whose value is a number or a boolean
(strings, lists and dicts iterate without raising). -/
def dependsOnBad (config : Config) : Bool :=
  match alookup config "depends_on" with
  | some (Value.num _) => true
  | some (Value.bool _) => true
  | _ => false

mutual

/-- Whether the value loop of _extract_dependencies raises somewhere while
scanning a block body's values in order. -/
def valuesRaise (config : Config) : Bool :=
  match config with
  | [] => false
  | (_, v) :: rest => valueRaises v || valuesRaise rest

/-- Whether scanning one attribute value raises: only a dict value can, via
the recursive _extract_dependencies call on it (inlined as with valueDeps). -/
def valueRaises (v : Value) : Bool :=
  match v with
  | Value.str _ => false
  | Value.map m => dependsOnBad m || valuesRaise m
  | Value.list l => listRaises l
  | Value.num _ => false
  | Value.bool _ => false

/-- Whether scanning the items of a list value raises: only dict items can;
string items and skipped items (nested lists, numbers, booleans) cannot. -/
def listRaises (items : List Value) : Bool :=
  match items with
  | [] => false
  | Value.str _ :: rest => listRaises rest
  | Value.map m :: rest => (dependsOnBad m || valuesRaise m) || listRaises rest
  | _ :: rest => listRaises rest

end

/-- Whether _extract_dependencies on a block body raises the uncaught
TypeError: either its own depends_on is a number or boolean, or the scan of
some reachable nested dict hits one. -/
def extract_dependencies_raises (config : Config) : Bool :=
  dependsOnBad config || valuesRaise config

/-- Whether extracting a two-level-keyed block collection (resource or data)
raises: _extract_dependencies runs on every instance body. -/
def typedBlocksRaise (blocks : List TypedBlocks) : Bool :=
  blocks.any fun block => block.any fun p => p.2.any fun q => extract_dependencies_raises q.2

/-- Whether extracting a one-level-keyed block collection that computes
dependencies (module or output) raises. -/
def blocksRaise (blocks : List Blocks) : Bool :=
  blocks.any fun block => block.any fun q => extract_dependencies_raises q.2

/-- Lifts a raise predicate to an optional block collection. -/
def optRaise {α : Type} (f : α → Bool) : Option α → Bool
  | some a => f a
  | none => false

/-- Whether _parse_file raises the uncaught TypeError on a file: never for a
malformed file (hcl2.loads raises first and that error is caught), otherwise
when one of the categories whose extractor computes dependencies - resource,
data, module or output; variables and providers never call
_extract_dependencies - hits a number or boolean depends_on. -/
def parse_file_raises (f : TfFile) : Bool :=
  match f with
  | TfFile.malformed _ => false
  | TfFile.ok parsed =>
    optRaise typedBlocksRaise parsed.resource ||
    optRaise typedBlocksRaise parsed.data ||
    optRaise blocksRaise parsed.module ||
    optRaise blocksRaise parsed.output


/-! ### Category extractors and the parse pipeline

Each Python extraction method is a nest of for-loops whose body inserts one
entity into the entities dict and appends its relationships.  Every loop body
is embedded as a named step function and the loops as folds over it, so that
the state-transformation lemmas below can name the steps. -/

/-- Body of the innermost loop of _extract_resources (parser.py lines 92-117):
one resource instance. -/
def resource_instance_step (resource_type : String) (st : TerraformParser)
    (q : String × Config) : TerraformParser :=
  let entity_id := "resource." ++ resource_type ++ "." ++ q.1
  let deps := extract_dependencies q.2
  { terraform_dir := st.terraform_dir,
    entities := dictInsert st.entities entity_id
      { id := entity_id, type := resource_type, category := "resource", name := q.1,
        provider := some (splitHead resource_type), attributes := q.2,
        dependencies := deps, position := none },
    relationships := st.relationships ++
      deps.map fun dep => { source := entity_id, target := dep, type := "depends_on" } }

/-- Middle loop of _extract_resources: one resource-type entry of a block. -/
def resource_block_step (st : TerraformParser) (p : String × Blocks) : TerraformParser :=
  p.2.foldl (resource_instance_step p.1) st

/-- Outer loop of _extract_resources: one parsed resource block. -/
def resource_list_step (st : TerraformParser) (resource : TypedBlocks) : TerraformParser :=
  resource.foldl resource_block_step st

/-- Embedding of TerraformParser._extract_resources (parser.py lines 88-117). -/
def extract_resources (st : TerraformParser) (resources : List TypedBlocks) : TerraformParser :=
  resources.foldl resource_list_step st

/-- Body of the innermost loop of _extract_data_sources (parser.py lines 121-148). -/
def data_instance_step (data_type : String) (st : TerraformParser)
    (q : String × Config) : TerraformParser :=
  let entity_id := "data." ++ data_type ++ "." ++ q.1
  let deps := extract_dependencies q.2
  { terraform_dir := st.terraform_dir,
    entities := dictInsert st.entities entity_id
      { id := entity_id, type := data_type, category := "data", name := q.1,
        provider := some (splitHead data_type), attributes := q.2,
        dependencies := deps, position := none },
    relationships := st.relationships ++
      deps.map fun dep => { source := entity_id, target := dep, type := "depends_on" } }

/-- Middle loop of _extract_data_sources: one data-type entry of a block. -/
def data_block_step (st : TerraformParser) (p : String × Blocks) : TerraformParser :=
  p.2.foldl (data_instance_step p.1) st

/-- Outer loop of _extract_data_sources: one parsed data block. -/
def data_list_step (st : TerraformParser) (data : TypedBlocks) : TerraformParser :=
  data.foldl data_block_step st

/-- Embedding of TerraformParser._extract_data_sources (parser.py lines 119-148). -/
def extract_data_sources (st : TerraformParser) (data_sources : List TypedBlocks) : TerraformParser :=
  data_sources.foldl data_list_step st

/-- Body of the inner loop of _extract_modules (parser.py lines 153-175). -/
def module_step (st : TerraformParser) (q : String × Config) : TerraformParser :=
  let entity_id := "module." ++ q.1
  let deps := extract_dependencies q.2
  { terraform_dir := st.terraform_dir,
    entities := dictInsert st.entities entity_id
      { id := entity_id, type := "module", category := "module", name := q.1,
        provider := none, attributes := q.2, dependencies := deps, position := none },
    relationships := st.relationships ++
      deps.map fun dep => { source := entity_id, target := dep, type := "depends_on" } }

/-- Outer loop of _extract_modules: one parsed module block. -/
def module_list_step (st : TerraformParser) (module : Blocks) : TerraformParser :=
  module.foldl module_step st

/-- Embedding of TerraformParser._extract_modules (parser.py lines 150-175). -/
def extract_modules (st : TerraformParser) (modules : List Blocks) : TerraformParser :=
  modules.foldl module_list_step st

/-- Body of the inner loop of _extract_variables (parser.py lines 180-193):
variables get no dependencies and produce no relationships. -/
def variable_step (st : TerraformParser) (q : String × Config) : TerraformParser :=
  let entity_id := "var." ++ q.1
  { terraform_dir := st.terraform_dir,
    entities := dictInsert st.entities entity_id
      { id := entity_id, type := "variable", category := "variable", name := q.1,
        provider := none, attributes := q.2, dependencies := [], position := none },
    relationships := st.relationships }

/-- Outer loop of _extract_variables: one parsed variable block. -/
def variable_list_step (st : TerraformParser) (var : Blocks) : TerraformParser :=
  var.foldl variable_step st

/-- Embedding of TerraformParser._extract_variables (parser.py lines 177-193). -/
def extract_variables (st : TerraformParser) (vars : List Blocks) : TerraformParser :=
  vars.foldl variable_list_step st

/-- Body of the inner loop of _extract_outputs (parser.py lines 197-220):
output relationships get kind references. -/
def output_step (st : TerraformParser) (q : String × Config) : TerraformParser :=
  let entity_id := "output." ++ q.1
  let deps := extract_dependencies q.2
  { terraform_dir := st.terraform_dir,
    entities := dictInsert st.entities entity_id
      { id := entity_id, type := "output", category := "output", name := q.1,
        provider := none, attributes := q.2, dependencies := deps, position := none },
    relationships := st.relationships ++
      deps.map fun dep => { source := entity_id, target := dep, type := "references" } }

/-- Outer loop of _extract_outputs: one parsed output block. -/
def output_list_step (st : TerraformParser) (output : Blocks) : TerraformParser :=
  output.foldl output_step st

/-- Embedding of TerraformParser._extract_outputs (parser.py lines 195-220). -/
def extract_outputs (st : TerraformParser) (outputs : List Blocks) : TerraformParser :=
  outputs.foldl output_list_step st

/-- Body of the inner loop of _extract_providers (parser.py lines 224-238):
providers get no dependencies and produce no relationships. -/
def provider_step (st : TerraformParser) (q : String × Config) : TerraformParser :=
  let entity_id := "provider." ++ q.1
  { terraform_dir := st.terraform_dir,
    entities := dictInsert st.entities entity_id
      { id := entity_id, type := "provider", category := "provider", name := q.1,
        provider := some q.1, attributes := q.2, dependencies := [], position := none },
    relationships := st.relationships }

/-- Outer loop of _extract_providers: one parsed provider block. -/
def provider_list_step (st : TerraformParser) (provider : Blocks) : TerraformParser :=
  provider.foldl provider_step st

/-- Embedding of TerraformParser._extract_providers (parser.py lines 222-238). -/
def extract_providers (st : TerraformParser) (providers : List Blocks) : TerraformParser :=
  providers.foldl provider_list_step st

/-- Embedding of TerraformParser._parse_file (parser.py lines 52-86): on a load
error the except branch prints a diagnostic and leaves the state unchanged;
otherwise the six category extractors run in order, each gated on the presence
of its top-level key. -/
def parse_file (st : TerraformParser) (f : TfFile) : TerraformParser :=
  match f with
  | TfFile.malformed _ => st
  | TfFile.ok parsed =>
    let st := match parsed.resource with | some r => extract_resources st r | none => st
    let st := match parsed.data with | some d => extract_data_sources st d | none => st
    let st := match parsed.module with | some m => extract_modules st m | none => st
    let st := match parsed.«variable» with | some v => extract_variables st v | none => st
    let st := match parsed.output with | some o => extract_outputs st o | none => st
    match parsed.provider with | some p => extract_providers st p | none => st

/-- Embedding of Path.rglob for the *.tf pattern: the files below an existing
directory in scan order; for a path that does not exist or is not a directory,
pathlib's selector yields nothing rather than raising. -/
def rglob_tf (fs : FileSystem) (path : String) : List TfFile :=
  match alookup fs.dirs path with
  | some files => files
  | none => []

/-- Whether a parse_directory call on a directory raises the uncaught
TypeError of the depends_on iteration: the per-file loop propagates the first
raise, so the call raises exactly when some discovered file raises.  The pure
parse_directory below describes the call when this is false. -/
def parse_directory_raises (fs : FileSystem) (dir : String) : Bool :=
  (rglob_tf fs dir).any parse_file_raises

/-- Embedding of TerraformParser.parse_directory (parser.py lines 35-50):
parse every discovered file, then build the result document.  Returns the
mutated parser state together with the returned document. -/
def parse_directory (fs : FileSystem) (st : TerraformParser) : TerraformParser × GraphResult :=
  let tf_files := rglob_tf fs st.terraform_dir
  let st := tf_files.foldl parse_file st
  (st,
   { entities := st.entities.map Prod.snd,
     relationships := st.relationships,
     metadata :=
       { total_files := tf_files.length,
         total_entities := st.entities.length,
         total_relationships := st.relationships.length } })

/-- Category list in first-seen order, as built by the categories dict of
TerraformParser.calculate_layout. -/
def catOrder (es : List TerraformEntity) : List String :=
  es.foldl (fun seen e => if e.category ∈ seen then seen else seen ++ [e.category]) []

/-- Position assignment of calculate_layout: an entity's column is its
category's index in first-seen order, its row counts the earlier entities of
the same category. -/
def layoutEntities (cats : List String) : List (String × TerraformEntity) → List String →
    List (String × TerraformEntity)
  | [], _ => []
  | (k, e) :: rest, done =>
    (k, { e with position := some (cats.indexOf e.category * 250, done.count e.category * 150) }) ::
      layoutEntities cats rest (done ++ [e.category])

/-- Embedding of TerraformParser.calculate_layout (parser.py lines 319-334):
entities are grouped by category in first-seen order and given grid positions
in place; the dict keys and order are unchanged. -/
def calculate_layout (st : TerraformParser) : TerraformParser :=
  { st with entities := layoutEntities (catOrder (st.entities.map Prod.snd)) st.entities [] }

/-- Embedding of TerraformParser.save_to_json (parser.py lines 336-349):
calculate_layout first, then parse_directory, then the result is dumped to the
output file.  The second component is the dumped document. -/
def save_to_json (fs : FileSystem) (st : TerraformParser) : TerraformParser × GraphResult :=
  parse_directory fs (calculate_layout st)

/-- Embedding of the module-level parse_terraform (parser.py lines 352-358):
a fresh parser, save_to_json (which writes its own parse_directory result to
the output file), then a second parse_directory call on the same parser whose
result is returned to the caller.  The first component is the persisted
document, the second the returned one. -/
def parse_terraform (fs : FileSystem) (terraform_dir : String) : GraphResult × GraphResult :=
  let parser := TerraformParser.init terraform_dir
  let saved := save_to_json fs parser
  let returned := parse_directory fs saved.1
  (saved.2, returned.2)

/-- Embedding of os.path.exists over the modelled file system. -/
def os_path_exists (fs : FileSystem) (path : String) : Bool :=
  (alookup fs.dirs path).isSome || path ∈ fs.files

/-- Embedding of the existence check and parse of the /api/parse-directory
route (src/apps/tf-visualizer/backend/api.py lines 107-116), after its alias
mapping: a missing path is answered with a 404 error payload, any existing
path (directory or not) is parsed and answered with the parse result.  The
route's parser is tf-visualizer's near-duplicate copy of parser.py, modelled
by the same embedding. -/
def parse_terraform_directory (fs : FileSystem) (directory : String) : Except String GraphResult :=
  if os_path_exists fs directory then
    Except.ok (parse_directory fs (TerraformParser.init directory)).2
  else
    Except.error ("Directory " ++ directory ++ " does not exist")

/-! ### Pure characterization of the state mutations

Each extractor only inserts entities and appends relationships, and the
inserted pairs and appended records depend on the parsed blocks alone.  The
generators below compute them directly; the normal-form lemmas prove each
fold equal to the corresponding single state transformation. -/

/-- The dict entry inserted for one resource instance. -/
def resourceEntry (resource_type : String) (q : String × Config) : String × TerraformEntity :=
  ("resource." ++ resource_type ++ "." ++ q.1,
   { id := "resource." ++ resource_type ++ "." ++ q.1, type := resource_type,
     category := "resource", name := q.1, provider := some (splitHead resource_type),
     attributes := q.2, dependencies := extract_dependencies q.2, position := none })

/-- The relationships appended for one resource instance. -/
def resourceRelsOf (resource_type : String) (q : String × Config) : List Relationship :=
  (extract_dependencies q.2).map fun dep =>
    { source := "resource." ++ resource_type ++ "." ++ q.1, target := dep, type := "depends_on" }

/-- The dict entry inserted for one data-source instance. -/
def dataEntry (data_type : String) (q : String × Config) : String × TerraformEntity :=
  ("data." ++ data_type ++ "." ++ q.1,
   { id := "data." ++ data_type ++ "." ++ q.1, type := data_type,
     category := "data", name := q.1, provider := some (splitHead data_type),
     attributes := q.2, dependencies := extract_dependencies q.2, position := none })

/-- The relationships appended for one data-source instance. -/
def dataRelsOf (data_type : String) (q : String × Config) : List Relationship :=
  (extract_dependencies q.2).map fun dep =>
    { source := "data." ++ data_type ++ "." ++ q.1, target := dep, type := "depends_on" }

/-- The dict entry inserted for one module block. -/
def moduleEntry (q : String × Config) : String × TerraformEntity :=
  ("module." ++ q.1,
   { id := "module." ++ q.1, type := "module", category := "module", name := q.1,
     provider := none, attributes := q.2,
     dependencies := extract_dependencies q.2, position := none })

/-- The relationships appended for one module block. -/
def moduleRelsOf (q : String × Config) : List Relationship :=
  (extract_dependencies q.2).map fun dep =>
    { source := "module." ++ q.1, target := dep, type := "depends_on" }

/-- The dict entry inserted for one variable block. -/
def variableEntry (q : String × Config) : String × TerraformEntity :=
  ("var." ++ q.1,
   { id := "var." ++ q.1, type := "variable", category := "variable", name := q.1,
     provider := none, attributes := q.2, dependencies := [], position := none })

/-- The dict entry inserted for one output block. -/
def outputEntry (q : String × Config) : String × TerraformEntity :=
  ("output." ++ q.1,
   { id := "output." ++ q.1, type := "output", category := "output", name := q.1,
     provider := none, attributes := q.2,
     dependencies := extract_dependencies q.2, position := none })

/-- The relationships appended for one output block. -/
def outputRelsOf (q : String × Config) : List Relationship :=
  (extract_dependencies q.2).map fun dep =>
    { source := "output." ++ q.1, target := dep, type := "references" }

/-- The dict entry inserted for one provider block. -/
def providerEntry (q : String × Config) : String × TerraformEntity :=
  ("provider." ++ q.1,
   { id := "provider." ++ q.1, type := "provider", category := "provider", name := q.1,
     provider := some q.1, attributes := q.2, dependencies := [], position := none })

/-- Entity-dict insertions performed by _extract_resources, in order. -/
def resourceInserts (resources : List TypedBlocks) : List (String × TerraformEntity) :=
  resources.flatMap fun resource => resource.flatMap fun p => p.2.flatMap fun q =>
    [resourceEntry p.1 q]

/-- Relationships appended by _extract_resources, in order. -/
def resourceRels (resources : List TypedBlocks) : List Relationship :=
  resources.flatMap fun resource => resource.flatMap fun p => p.2.flatMap fun q =>
    resourceRelsOf p.1 q

/-- Entity-dict insertions performed by _extract_data_sources, in order. -/
def dataInserts (data_sources : List TypedBlocks) : List (String × TerraformEntity) :=
  data_sources.flatMap fun data => data.flatMap fun p => p.2.flatMap fun q =>
    [dataEntry p.1 q]

/-- Relationships appended by _extract_data_sources, in order. -/
def dataRels (data_sources : List TypedBlocks) : List Relationship :=
  data_sources.flatMap fun data => data.flatMap fun p => p.2.flatMap fun q =>
    dataRelsOf p.1 q

/-- Entity-dict insertions performed by _extract_modules, in order. -/
def moduleInserts (modules : List Blocks) : List (String × TerraformEntity) :=
  modules.flatMap fun module => module.flatMap fun q => [moduleEntry q]

/-- Relationships appended by _extract_modules, in order. -/
def moduleRels (modules : List Blocks) : List Relationship :=
  modules.flatMap fun module => module.flatMap fun q => moduleRelsOf q

/-- Entity-dict insertions performed by _extract_variables, in order. -/
def variableInserts (vars : List Blocks) : List (String × TerraformEntity) :=
  vars.flatMap fun var => var.flatMap fun q => [variableEntry q]

/-- Entity-dict insertions performed by _extract_outputs, in order. -/
def outputInserts (outputs : List Blocks) : List (String × TerraformEntity) :=
  outputs.flatMap fun output => output.flatMap fun q => [outputEntry q]

/-- Relationships appended by _extract_outputs, in order. -/
def outputRels (outputs : List Blocks) : List Relationship :=
  outputs.flatMap fun output => output.flatMap fun q => outputRelsOf q

/-- Entity-dict insertions performed by _extract_providers, in order. -/
def providerInserts (providers : List Blocks) : List (String × TerraformEntity) :=
  providers.flatMap fun provider => provider.flatMap fun q => [providerEntry q]

/-- Applying a dict-assignment sequence splits over list append. -/
theorem dictInserts_append {α : Type} (m : List (String × α)) (a b : List (String × α)) :
    dictInserts m (a ++ b) = dictInserts (dictInserts m a) b :=
  List.foldl_append _ _ _ _

/-- A fold whose step inserts entities and appends relationships computed from
the element alone is the corresponding single state transformation. -/
theorem foldl_norm {α : Type} (step : TerraformParser → α → TerraformParser)
    (g : α → List (String × TerraformEntity)) (h : α → List Relationship)
    (hstep : ∀ st a, step st a =
      { terraform_dir := st.terraform_dir,
        entities := dictInserts st.entities (g a),
        relationships := st.relationships ++ h a })
    (l : List α) (st : TerraformParser) :
    l.foldl step st =
      { terraform_dir := st.terraform_dir,
        entities := dictInserts st.entities (l.flatMap g),
        relationships := st.relationships ++ l.flatMap h } := by
  induction l generalizing st with
  | nil => simp [dictInserts]
  | cons a t ih =>
    rw [List.foldl_cons, hstep, ih]
    simp [dictInserts_append, List.append_assoc]

/-- Normal form of the innermost _extract_resources loop. -/
theorem resource_insts_norm (resource_type : String) (insts : Blocks) (st : TerraformParser) :
    insts.foldl (resource_instance_step resource_type) st =
      { terraform_dir := st.terraform_dir,
        entities := dictInserts st.entities (insts.flatMap fun q => [resourceEntry resource_type q]),
        relationships := st.relationships ++ insts.flatMap (resourceRelsOf resource_type) } :=
  foldl_norm (resource_instance_step resource_type)
    (fun q => [resourceEntry resource_type q]) (resourceRelsOf resource_type)
    (fun _ _ => rfl) insts st

/-- Normal form of the middle _extract_resources loop. -/
theorem resource_block_norm (resource : TypedBlocks) (st : TerraformParser) :
    resource.foldl resource_block_step st =
      { terraform_dir := st.terraform_dir,
        entities := dictInserts st.entities
          (resource.flatMap fun p => p.2.flatMap fun q => [resourceEntry p.1 q]),
        relationships := st.relationships ++
          resource.flatMap fun p => p.2.flatMap fun q => resourceRelsOf p.1 q } :=
  foldl_norm resource_block_step
    (fun p => p.2.flatMap fun q => [resourceEntry p.1 q])
    (fun p => p.2.flatMap fun q => resourceRelsOf p.1 q)
    (fun st p => resource_insts_norm p.1 p.2 st) resource st

/-- Normal form of _extract_resources. -/
theorem extract_resources_norm (st : TerraformParser) (resources : List TypedBlocks) :
    extract_resources st resources =
      { terraform_dir := st.terraform_dir,
        entities := dictInserts st.entities (resourceInserts resources),
        relationships := st.relationships ++ resourceRels resources } :=
  foldl_norm resource_list_step
    (fun resource => resource.flatMap fun p => p.2.flatMap fun q => [resourceEntry p.1 q])
    (fun resource => resource.flatMap fun p => p.2.flatMap fun q => resourceRelsOf p.1 q)
    (fun st resource => resource_block_norm resource st) resources st

/-- Normal form of the innermost _extract_data_sources loop. -/
theorem data_insts_norm (data_type : String) (insts : Blocks) (st : TerraformParser) :
    insts.foldl (data_instance_step data_type) st =
      { terraform_dir := st.terraform_dir,
        entities := dictInserts st.entities (insts.flatMap fun q => [dataEntry data_type q]),
        relationships := st.relationships ++ insts.flatMap (dataRelsOf data_type) } :=
  foldl_norm (data_instance_step data_type)
    (fun q => [dataEntry data_type q]) (dataRelsOf data_type)
    (fun _ _ => rfl) insts st

/-- Normal form of the middle _extract_data_sources loop. -/
theorem data_block_norm (data : TypedBlocks) (st : TerraformParser) :
    data.foldl data_block_step st =
      { terraform_dir := st.terraform_dir,
        entities := dictInserts st.entities
          (data.flatMap fun p => p.2.flatMap fun q => [dataEntry p.1 q]),
        relationships := st.relationships ++
          data.flatMap fun p => p.2.flatMap fun q => dataRelsOf p.1 q } :=
  foldl_norm data_block_step
    (fun p => p.2.flatMap fun q => [dataEntry p.1 q])
    (fun p => p.2.flatMap fun q => dataRelsOf p.1 q)
    (fun st p => data_insts_norm p.1 p.2 st) data st

/-- Normal form of _extract_data_sources. -/
theorem extract_data_sources_norm (st : TerraformParser) (data_sources : List TypedBlocks) :
    extract_data_sources st data_sources =
      { terraform_dir := st.terraform_dir,
        entities := dictInserts st.entities (dataInserts data_sources),
        relationships := st.relationships ++ dataRels data_sources } :=
  foldl_norm data_list_step
    (fun data => data.flatMap fun p => p.2.flatMap fun q => [dataEntry p.1 q])
    (fun data => data.flatMap fun p => p.2.flatMap fun q => dataRelsOf p.1 q)
    (fun st data => data_block_norm data st) data_sources st

/-- Normal form of the inner _extract_modules loop. -/
theorem module_insts_norm (module : Blocks) (st : TerraformParser) :
    module.foldl module_step st =
      { terraform_dir := st.terraform_dir,
        entities := dictInserts st.entities (module.flatMap fun q => [moduleEntry q]),
        relationships := st.relationships ++ module.flatMap moduleRelsOf } :=
  foldl_norm module_step (fun q => [moduleEntry q]) moduleRelsOf (fun _ _ => rfl) module st

/-- Normal form of _extract_modules. -/
theorem extract_modules_norm (st : TerraformParser) (modules : List Blocks) :
    extract_modules st modules =
      { terraform_dir := st.terraform_dir,
        entities := dictInserts st.entities (moduleInserts modules),
        relationships := st.relationships ++ moduleRels modules } :=
  foldl_norm module_list_step
    (fun module => module.flatMap fun q => [moduleEntry q])
    (fun module => module.flatMap fun q => moduleRelsOf q)
    (fun st module => module_insts_norm module st) modules st

/-- Normal form of the inner _extract_variables loop. -/
theorem variable_insts_norm (var : Blocks) (st : TerraformParser) :
    var.foldl variable_step st =
      { terraform_dir := st.terraform_dir,
        entities := dictInserts st.entities (var.flatMap fun q => [variableEntry q]),
        relationships := st.relationships ++ var.flatMap fun _ => ([] : List Relationship) } :=
  foldl_norm variable_step (fun q => [variableEntry q]) (fun _ => ([] : List Relationship))
    (fun st q => by simp only [List.append_nil]; rfl) var st

/-- Normal form of _extract_variables: no relationships are appended. -/
theorem extract_variables_norm (st : TerraformParser) (vars : List Blocks) :
    extract_variables st vars =
      { terraform_dir := st.terraform_dir,
        entities := dictInserts st.entities (variableInserts vars),
        relationships := st.relationships } := by
  have h := foldl_norm variable_list_step
    (fun var => var.flatMap fun q => [variableEntry q])
    (fun var => var.flatMap fun _ => ([] : List Relationship))
    (fun st var => variable_insts_norm var st) vars st
  rw [extract_variables, h]
  simp [variableInserts]

/-- Normal form of the inner _extract_outputs loop. -/
theorem output_insts_norm (output : Blocks) (st : TerraformParser) :
    output.foldl output_step st =
      { terraform_dir := st.terraform_dir,
        entities := dictInserts st.entities (output.flatMap fun q => [outputEntry q]),
        relationships := st.relationships ++ output.flatMap outputRelsOf } :=
  foldl_norm output_step (fun q => [outputEntry q]) outputRelsOf (fun _ _ => rfl) output st

/-- Normal form of _extract_outputs. -/
theorem extract_outputs_norm (st : TerraformParser) (outputs : List Blocks) :
    extract_outputs st outputs =
      { terraform_dir := st.terraform_dir,
        entities := dictInserts st.entities (outputInserts outputs),
        relationships := st.relationships ++ outputRels outputs } :=
  foldl_norm output_list_step
    (fun output => output.flatMap fun q => [outputEntry q])
    (fun output => output.flatMap fun q => outputRelsOf q)
    (fun st output => output_insts_norm output st) outputs st

/-- Normal form of the inner _extract_providers loop. -/
theorem provider_insts_norm (provider : Blocks) (st : TerraformParser) :
    provider.foldl provider_step st =
      { terraform_dir := st.terraform_dir,
        entities := dictInserts st.entities (provider.flatMap fun q => [providerEntry q]),
        relationships := st.relationships ++ provider.flatMap fun _ => ([] : List Relationship) } :=
  foldl_norm provider_step (fun q => [providerEntry q]) (fun _ => ([] : List Relationship))
    (fun st q => by simp only [List.append_nil]; rfl) provider st

/-- Normal form of _extract_providers: no relationships are appended. -/
theorem extract_providers_norm (st : TerraformParser) (providers : List Blocks) :
    extract_providers st providers =
      { terraform_dir := st.terraform_dir,
        entities := dictInserts st.entities (providerInserts providers),
        relationships := st.relationships } := by
  have h := foldl_norm provider_list_step
    (fun provider => provider.flatMap fun q => [providerEntry q])
    (fun provider => provider.flatMap fun _ => ([] : List Relationship))
    (fun st provider => provider_insts_norm provider st) providers st
  rw [extract_providers, h]
  simp [providerInserts]

/-- Applies a generator to an optional block collection: absent keys
contribute nothing. -/
def optList {α β : Type} (f : α → List β) : Option α → List β
  | some a => f a
  | none => []

/-- Entity-dict insertions performed by _parse_file on one file, in order:
nothing for a malformed file, otherwise the six categories in dispatch order. -/
def fileInserts : TfFile → List (String × TerraformEntity)
  | TfFile.malformed _ => []
  | TfFile.ok parsed =>
    optList resourceInserts parsed.resource ++
    optList dataInserts parsed.data ++
    optList moduleInserts parsed.module ++
    optList variableInserts parsed.«variable» ++
    optList outputInserts parsed.output ++
    optList providerInserts parsed.provider

/-- Relationships appended by _parse_file on one file, in order. -/
def fileRels : TfFile → List Relationship
  | TfFile.malformed _ => []
  | TfFile.ok parsed =>
    optList resourceRels parsed.resource ++
    optList dataRels parsed.data ++
    optList moduleRels parsed.module ++
    optList outputRels parsed.output

/-- Normal form of _parse_file: one batch of dict insertions plus one batch of
appended relationships, both computed from the file alone. -/
theorem parse_file_norm (st : TerraformParser) (f : TfFile) :
    parse_file st f =
      { terraform_dir := st.terraform_dir,
        entities := dictInserts st.entities (fileInserts f),
        relationships := st.relationships ++ fileRels f } := by
  cases f with
  | malformed msg => simp [parse_file, fileInserts, fileRels, dictInserts]
  | ok parsed =>
    obtain ⟨r, d, m, v, o, pr⟩ := parsed
    simp only [parse_file, fileInserts, fileRels]
    cases r <;> cases d <;> cases m <;> cases v <;> cases o <;> cases pr <;>
      simp [optList, extract_resources_norm, extract_data_sources_norm, extract_modules_norm,
        extract_variables_norm, extract_outputs_norm, extract_providers_norm,
        dictInserts_append, dictInserts, List.append_assoc]

/-- Normal form of the file loop of parse_directory. -/
theorem foldl_parse_file_norm (files : List TfFile) (st : TerraformParser) :
    files.foldl parse_file st =
      { terraform_dir := st.terraform_dir,
        entities := dictInserts st.entities (files.flatMap fileInserts),
        relationships := st.relationships ++ files.flatMap fileRels } :=
  foldl_norm parse_file fileInserts fileRels parse_file_norm files st

/-- Normal form of parse_directory: the final state and the result document,
both as functions of the discovered file list and the starting state. -/
theorem parse_directory_norm (fs : FileSystem) (st : TerraformParser) :
    parse_directory fs st =
      ({ terraform_dir := st.terraform_dir,
         entities := dictInserts st.entities ((rglob_tf fs st.terraform_dir).flatMap fileInserts),
         relationships := st.relationships ++ (rglob_tf fs st.terraform_dir).flatMap fileRels },
       { entities := (dictInserts st.entities
           ((rglob_tf fs st.terraform_dir).flatMap fileInserts)).map Prod.snd,
         relationships := st.relationships ++ (rglob_tf fs st.terraform_dir).flatMap fileRels,
         metadata :=
           { total_files := (rglob_tf fs st.terraform_dir).length,
             total_entities := (dictInserts st.entities
               ((rglob_tf fs st.terraform_dir).flatMap fileInserts)).length,
             total_relationships := (st.relationships ++
               (rglob_tf fs st.terraform_dir).flatMap fileRels).length } }) := by
  simp only [parse_directory, foldl_parse_file_norm]

/-! ### Association-list lemmas

The entities dict is an insertion-ordered association list with last-write-wins
assignment.  The lemmas below characterize lookup, keys and membership under
assignment sequences, leading to idempotence of re-applying a sequence. -/

/-- Unfolding lemma for lookup at a cons cell. -/
theorem alookup_cons {α : Type} (k : String) (v : α) (t : List (String × α)) (key : String) :
    alookup ((k, v) :: t) key = if k = key then some v else alookup t key := rfl

/-- A key is absent exactly when lookup fails. -/
theorem alookup_eq_none {α : Type} (m : List (String × α)) (key : String) :
    alookup m key = none ↔ key ∉ keysOf m := by
  induction m with
  | nil => simp [alookup, keysOf]
  | cons a t ih =>
    by_cases h : a.1 = key
    · simp [alookup, keysOf, h]
    · simp [alookup, keysOf, h, ih, Ne.symm h]

/-- Lookup distributes over append, first list first. -/
theorem alookup_append {α : Type} (m n : List (String × α)) (key : String) :
    alookup (m ++ n) key =
      match alookup m key with
      | some v => some v
      | none => alookup n key := by
  induction m with
  | nil => simp [alookup]
  | cons a t ih =>
    by_cases h : a.1 = key
    · simp [alookup, h]
    · simp [alookup, h, ih]

/-- Lookup after replacing the value at one key in place. -/
theorem alookup_map_replace {α : Type} (t : List (String × α)) (k : String) (v : α)
    (key : String) :
    alookup (t.map (fun p => if p.1 = k then (k, v) else p)) key =
      if k = key then (if k ∈ keysOf t then some v else none) else alookup t key := by
  induction t with
  | nil => by_cases h : k = key <;> simp [alookup, keysOf, h]
  | cons a t ih =>
    obtain ⟨a1, a2⟩ := a
    simp only [List.map_cons]
    by_cases hak : a1 = k
    · subst hak
      rw [show (if (a1, a2).1 = a1 then (a1, v) else (a1, a2)) = (a1, v) from if_pos rfl]
    

      by_cases hk : a1 = key
      · subst hk
        simp [alookup_cons, keysOf]
      · simp [alookup_cons, keysOf, hk, ih]
    · rw [show (if (a1, a2).1 = k then (k, v) else (a1, a2)) = (a1, a2) from if_neg hak]
      by_cases hkey : a1 = key
      · subst hkey
        simp [alookup_cons, Ne.symm hak]
      · have hka : ¬ k = a1 := fun h => hak h.symm
        by_cases hkk : k = key
        · subst hkk
          by_cases hkm : k ∈ List.map Prod.fst t <;>
            simp [alookup_cons, keysOf, hkey, ih, hkm, List.mem_cons, hka]
        · simp [alookup_cons, keysOf, hkey, ih, hkk, List.mem_cons, hka]

/-- Lookup after a single dict assignment. -/
theorem alookup_dictInsert {α : Type} (m : List (String × α)) (k : String) (v : α)
    (key : String) :
    alookup (dictInsert m k v) key = if k = key then some v else alookup m key := by
  rw [dictInsert]
  by_cases hmem : k ∈ keysOf m
  · rw [if_pos hmem, alookup_map_replace]
    by_cases hk : k = key
    · simp [hk, hk ▸ hmem]
    · simp [hk]
  · rw [if_neg hmem, alookup_append]
    by_cases hk : k = key
    · subst hk
      rw [(alookup_eq_none m k).mpr hmem]
      simp [alookup_cons]
    · cases hm : alookup m key with
      | some w => simp [hk]
      | none => simp [alookup_cons, hk, alookup]

/-- Replacing a value in place does not change the key list. -/
theorem keysOf_map_replace {α : Type} (t : List (String × α)) (k : String) (v : α) :
    keysOf (t.map (fun p => if p.1 = k then (k, v) else p)) = keysOf t := by
  rw [keysOf, keysOf, List.map_map]
  apply List.map_congr_left
  intro p _
  by_cases h : p.1 = k <;> simp [h]

/-- Keys after a single dict assignment. -/
theorem keysOf_dictInsert {α : Type} (m : List (String × α)) (k : String) (v : α) :
    keysOf (dictInsert m k v) = if k ∈ keysOf m then keysOf m else keysOf m ++ [k] := by
  rw [dictInsert]
  by_cases hmem : k ∈ keysOf m
  · rw [if_pos hmem, if_pos hmem, keysOf_map_replace]
  · rw [if_neg hmem, if_neg hmem]
    simp [keysOf]

/-- Key membership after a single dict assignment. -/
theorem mem_keysOf_dictInsert {α : Type} (m : List (String × α)) (k : String) (v : α)
    (key : String) :
    key ∈ keysOf (dictInsert m k v) ↔ key ∈ keysOf m ∨ key = k := by
  rw [keysOf_dictInsert]
  by_cases hmem : k ∈ keysOf m
  · simp only [if_pos hmem]
    constructor
    · exact Or.inl
    · rintro (h | rfl)
      · exact h
      · exact hmem
  · simp [if_neg hmem]

/-- Entry membership after a single dict assignment: every entry either was
already present or is the assigned pair. -/
theorem mem_dictInsert {α : Type} (m : List (String × α)) (k : String) (v : α)
    (p : String × α) (hp : p ∈ dictInsert m k v) : p ∈ m ∨ p = (k, v) := by
  rw [dictInsert] at hp
  by_cases hmem : k ∈ keysOf m
  · rw [if_pos hmem] at hp
    obtain ⟨q, hq, hqe⟩ := List.mem_map.mp hp
    by_cases hqk : q.1 = k
    · simp only [if_pos hqk] at hqe
      exact Or.inr hqe.symm
    · simp only [if_neg hqk] at hqe
      exact Or.inl (hqe ▸ hq)
  · rw [if_neg hmem] at hp
    rcases List.mem_append.mp hp with h | h
    · exact Or.inl h
    · exact Or.inr (List.mem_singleton.mp h)

/-- Entry membership after an assignment sequence. -/
theorem mem_dictInserts {α : Type} (L : List (String × α)) (m : List (String × α))
    (p : String × α) (hp : p ∈ dictInserts m L) : p ∈ m ∨ p ∈ L := by
  induction L generalizing m with
  | nil => exact Or.inl hp
  | cons a t ih =>
    rcases ih (dictInsert m a.1 a.2) hp with h | h
    · rcases mem_dictInsert m a.1 a.2 p h with h' | h'
      · exact Or.inl h'
      · exact Or.inr (h' ▸ List.mem_cons_self a t)
    · exact Or.inr (List.mem_cons_of_mem a h)

/-- Nodup keys are preserved by a dict assignment. -/
theorem nodup_keysOf_dictInsert {α : Type} (m : List (String × α)) (k : String) (v : α)
    (h : (keysOf m).Nodup) : (keysOf (dictInsert m k v)).Nodup := by
  rw [keysOf_dictInsert]
  by_cases hmem : k ∈ keysOf m
  · simpa [hmem] using h
  · rw [if_neg hmem]
    exact List.Nodup.append h (List.nodup_singleton k)
      (fun a ha hb => hmem ((List.mem_singleton.mp hb) ▸ ha))

/-- Nodup keys are preserved by an assignment sequence. -/
theorem nodup_keysOf_dictInserts {α : Type} (L : List (String × α)) (m : List (String × α))
    (h : (keysOf m).Nodup) : (keysOf (dictInserts m L)).Nodup := by
  induction L generalizing m with
  | nil => exact h
  | cons a t ih => exact ih (dictInsert m a.1 a.2) (nodup_keysOf_dictInsert m a.1 a.2 h)

/-- The last value assigned to a key by an assignment sequence. -/
def lastVal {α : Type} : List (String × α) → String → Option α
  | [], _ => none
  | (k, v) :: rest, key =>
    match lastVal rest key with
    | some w => some w
    | none => if k = key then some v else none

/-- Lookup after an assignment sequence: the last assignment to the key wins,
otherwise the original binding shows through. -/
theorem alookup_dictInserts {α : Type} (L : List (String × α)) (m : List (String × α))
    (key : String) :
    alookup (dictInserts m L) key =
      match lastVal L key with
      | some w => some w
      | none => alookup m key := by
  induction L generalizing m with
  | nil => simp [dictInserts, lastVal]
  | cons a t ih =>
    obtain ⟨k, v⟩ := a
    show alookup (dictInserts (dictInsert m k v) t) key = _
    rw [ih]
    cases hlv : lastVal t key with
    | some w => simp [lastVal, hlv]
    | none => by_cases hk : k = key <;> simp [lastVal, hlv, alookup_dictInsert, hk]

/-- Key membership after an assignment sequence. -/
theorem mem_keysOf_dictInserts {α : Type} (L : List (String × α)) (m : List (String × α))
    (key : String) :
    key ∈ keysOf (dictInserts m L) ↔ key ∈ keysOf m ∨ key ∈ keysOf L := by
  induction L generalizing m with
  | nil => simp [dictInserts, keysOf]
  | cons a t ih =>
    show key ∈ keysOf (dictInserts (dictInsert m a.1 a.2) t) ↔ _
    rw [ih, mem_keysOf_dictInsert]
    simp only [keysOf, List.map_cons, List.mem_cons]
    constructor
    · rintro ((h | rfl) | h)
      · exact Or.inl h
      · exact Or.inr (Or.inl rfl)
      · exact Or.inr (Or.inr h)
    · rintro (h | rfl | h)
      · exact Or.inl (Or.inl h)
      · exact Or.inl (Or.inr rfl)
      · exact Or.inr h

/-- When every key of the sequence is already present, the key list is
unchanged by the sequence. -/
theorem keysOf_dictInserts_of_subset {α : Type} (L : List (String × α))
    (m : List (String × α)) (h : ∀ key ∈ keysOf L, key ∈ keysOf m) :
    keysOf (dictInserts m L) = keysOf m := by
  induction L generalizing m with
  | nil => rfl
  | cons a t ih =>
    show keysOf (dictInserts (dictInsert m a.1 a.2) t) = _
    have ha : a.1 ∈ keysOf m := h a.1 (by simp [keysOf])
    have hins : keysOf (dictInsert m a.1 a.2) = keysOf m := by
      rw [keysOf_dictInsert, if_pos ha]
    rw [ih (dictInsert m a.1 a.2) ?_, hins]
    intro key hkey
    rw [hins]
    refine h key ?_
    simp only [keysOf, List.map_cons, List.mem_cons]
    exact Or.inr hkey

/-- Extensionality for association lists with nodup keys: equal key sequences
and equal lookups give equal lists. -/
theorem assoc_ext {α : Type} (m₁ : List (String × α)) (m₂ : List (String × α))
    (hk : keysOf m₁ = keysOf m₂) (hn : (keysOf m₁).Nodup)
    (hl : ∀ key, alookup m₁ key = alookup m₂ key) : m₁ = m₂ := by
  induction m₁ generalizing m₂ with
  | nil =>
    cases m₂ with
    | nil => rfl
    | cons b t₂ => simp [keysOf] at hk
  | cons a t₁ ih =>
    cases m₂ with
    | nil => simp [keysOf] at hk
    | cons b t₂ =>
      simp only [keysOf, List.map_cons, List.cons.injEq] at hk
      obtain ⟨hab, ht⟩ := hk
      have hval : a.2 = b.2 := by
        have h := hl a.1
        obtain ⟨a1, a2⟩ := a
        obtain ⟨b1, b2⟩ := b
        simp only at hab ht
        subst hab
        simpa [alookup_cons] using h
      simp only [keysOf, List.map_cons, List.nodup_cons] at hn
      have htl : ∀ key, alookup t₁ key = alookup t₂ key := by
        intro key
        by_cases hkey : a.1 = key
        · have h₁ : alookup t₁ key = none :=
            (alookup_eq_none t₁ key).mpr (fun hmem => hn.1 (hkey ▸ hmem))
          have h₂ : alookup t₂ key = none := by
            refine (alookup_eq_none t₂ key).mpr (fun hmem => hn.1 ?_)
            rw [hkey, ht]
            exact hmem
          rw [h₁, h₂]
        · have h := hl key
          obtain ⟨a1, a2⟩ := a
          obtain ⟨b1, b2⟩ := b
          simp only at hab hkey
          subst hab
          simpa [alookup_cons, hkey] using h
      have hrec : t₁ = t₂ := ih t₂ ht hn.2 htl
      obtain ⟨a1, a2⟩ := a
      obtain ⟨b1, b2⟩ := b
      simp only at hab hval
      rw [hab, hval, hrec]

/-- Re-applying the same assignment sequence changes nothing. -/
theorem dictInserts_idem {α : Type} (L : List (String × α)) (m : List (String × α))
    (hn : (keysOf m).Nodup) : dictInserts (dictInserts m L) L = dictInserts m L := by
  apply assoc_ext
  · apply keysOf_dictInserts_of_subset
    intro key hkey
    rw [mem_keysOf_dictInserts]
    exact Or.inr hkey
  · exact nodup_keysOf_dictInserts L (dictInserts m L) (nodup_keysOf_dictInserts L m hn)
  · intro key
    rw [alookup_dictInserts, alookup_dictInserts]
    cases hlv : lastVal L key with
    | some w => simp
    | none => simp [alookup_dictInserts, hlv]

/-! ### Deduplication and dependency-membership lemmas -/

/-- Unfolding lemma for the dedup accumulator. -/
theorem dedupAux_cons (a : String) (t seen : List String) :
    dedupAux (a :: t) seen =
      if a ∈ seen then dedupAux t seen else a :: dedupAux t (a :: seen) := rfl

/-- Membership in the dedup accumulator: kept exactly when present and unseen. -/
theorem mem_dedupAux (l : List String) (seen : List String) (x : String) :
    x ∈ dedupAux l seen ↔ x ∈ l ∧ x ∉ seen := by
  induction l generalizing seen with
  | nil => simp [dedupAux]
  | cons a t ih =>
    rw [dedupAux_cons]
    by_cases h : a ∈ seen
    · rw [if_pos h, ih]
      constructor
      · rintro ⟨hx, hs⟩
        exact ⟨List.mem_cons_of_mem a hx, hs⟩
      · rintro ⟨hx, hs⟩
        rcases List.mem_cons.mp hx with rfl | hx
        · exact (hs h).elim
        · exact ⟨hx, hs⟩
    · rw [if_neg h]
      constructor
      · intro hx
        rcases List.mem_cons.mp hx with rfl | hx
        · exact ⟨List.mem_cons_self _ _, h⟩
        · have h2 := (ih (a :: seen)).mp hx
          exact ⟨List.mem_cons_of_mem a h2.1, fun hs => h2.2 (List.mem_cons_of_mem a hs)⟩
      · rintro ⟨hx, hs⟩
        rcases List.mem_cons.mp hx with rfl | hx
        · exact List.mem_cons_self _ _
        · by_cases hxa : x = a
          · subst hxa
            exact List.mem_cons_self _ _
          · refine List.mem_cons_of_mem a ((ih (a :: seen)).mpr ⟨hx, ?_⟩)
            intro hmem
            exact (List.mem_cons.mp hmem).elim hxa hs

/-- The dedup accumulator never repeats an element. -/
theorem nodup_dedupAux (l : List String) (seen : List String) : (dedupAux l seen).Nodup := by
  induction l generalizing seen with
  | nil => simp [dedupAux]
  | cons a t ih =>
    rw [dedupAux_cons]
    by_cases h : a ∈ seen
    · simpa [h] using ih seen
    · rw [if_neg h]
      refine List.nodup_cons.mpr ⟨?_, ih (a :: seen)⟩
      intro hmem
      exact ((mem_dedupAux t (a :: seen) a).mp hmem).2 (List.mem_cons_self _ _)

/-- Deduplication preserves membership. -/
theorem mem_pyDedup (l : List String) (x : String) : x ∈ pyDedup l ↔ x ∈ l := by
  rw [pyDedup, mem_dedupAux]
  simp

/-- The deduplicated list has no duplicates. -/
theorem nodup_pyDedup (l : List String) : (pyDedup l).Nodup :=
  nodup_dedupAux l []

/-- Unfolding lemma for _extract_dependencies. -/
theorem extract_dependencies_def (config : Config) :
    extract_dependencies config = pyDedup (dependsOnStrings config ++ valuesDeps config) := rfl

/-- A dependency is extracted exactly when it is a verbatim depends_on entry or
is produced by the scan of some attribute value. -/
theorem mem_extract_dependencies (config : Config) (d : String) :
    d ∈ extract_dependencies config ↔
      d ∈ dependsOnStrings config ∨ d ∈ valuesDeps config := by
  rw [extract_dependencies_def, mem_pyDedup, List.mem_append]

/-- Unfolding lemma for the value scan at a cons cell. -/
theorem valuesDeps_cons (k : String) (v : Value) (t : Config) :
    valuesDeps ((k, v) :: t) = valueDeps v ++ valuesDeps t := rfl

/-- Unfolding lemma: string values are scanned for references. -/
theorem valueDeps_str (s : String) : valueDeps (Value.str s) = find_references s := rfl

/-- Unfolding lemma: dict values are recursed into. -/
theorem valueDeps_map (m : Config) : valueDeps (Value.map m) = extract_dependencies m := rfl

/-- Unfolding lemma: list values are walked one level. -/
theorem valueDeps_list (l : List Value) : valueDeps (Value.list l) = listDeps l := rfl

/-- Unfolding lemma: numbers contribute nothing. -/
theorem valueDeps_num (n : Int) : valueDeps (Value.num n) = [] := rfl

/-- Unfolding lemma: booleans contribute nothing. -/
theorem valueDeps_bool (b : Bool) : valueDeps (Value.bool b) = [] := rfl

/-- Unfolding lemma: a string item of a list is scanned. -/
theorem listDeps_cons_str (s : String) (t : List Value) :
    listDeps (Value.str s :: t) = find_references s ++ listDeps t := rfl

/-- Unfolding lemma: a dict item of a list is recursed into. -/
theorem listDeps_cons_map (m : Config) (t : List Value) :
    listDeps (Value.map m :: t) = extract_dependencies m ++ listDeps t := rfl

/-- Unfolding lemma: a list item nested in a list is skipped entirely. -/
theorem listDeps_cons_list (l : List Value) (t : List Value) :
    listDeps (Value.list l :: t) = listDeps t := rfl

/-- Unfolding lemma: a number item of a list is skipped. -/
theorem listDeps_cons_num (n : Int) (t : List Value) :
    listDeps (Value.num n :: t) = listDeps t := rfl

/-- Unfolding lemma: a boolean item of a list is skipped. -/
theorem listDeps_cons_bool (b : Bool) (t : List Value) :
    listDeps (Value.bool b :: t) = listDeps t := rfl

/-- The value scan of a block collects over its attribute values. -/
theorem mem_valuesDeps (config : Config) (d : String) :
    d ∈ valuesDeps config ↔ ∃ p ∈ config, d ∈ valueDeps p.2 := by
  induction config with
  | nil => simp [valuesDeps]
  | cons a t ih =>
    obtain ⟨k, v⟩ := a
    rw [valuesDeps_cons, List.mem_append, ih]
    constructor
    · rintro (h | ⟨p, hp, hd⟩)
      · exact ⟨(k, v), List.mem_cons_self _ _, h⟩
      · exact ⟨p, List.mem_cons_of_mem _ hp, hd⟩
    · rintro ⟨p, hp, hd⟩
      rcases List.mem_cons.mp hp with rfl | hp
      · exact Or.inl hd
      · exact Or.inr ⟨p, hp, hd⟩

/-- A string item of a list value contributes its references. -/
theorem mem_listDeps_of_str (items : List Value) (s : String) (d : String)
    (hs : Value.str s ∈ items) (hd : d ∈ find_references s) : d ∈ listDeps items := by
  induction items with
  | nil => cases hs
  | cons a t ih =>
    rcases List.mem_cons.mp hs with rfl | hs'
    · rw [listDeps_cons_str]
      exact List.mem_append.mpr (Or.inl hd)
    · cases a with
      | str s' =>
        rw [listDeps_cons_str]
        exact List.mem_append.mpr (Or.inr (ih hs'))
      | map mm =>
        rw [listDeps_cons_map]
        exact List.mem_append.mpr (Or.inr (ih hs'))
      | num n =>
        rw [listDeps_cons_num]
        exact ih hs'
      | bool b =>
        rw [listDeps_cons_bool]
        exact ih hs'
      | list l =>
        rw [listDeps_cons_list]
        exact ih hs'

/-- A dict item of a list value contributes its recursively extracted
dependencies. -/
theorem mem_listDeps_of_map (items : List Value) (mm : Config) (d : String)
    (hs : Value.map mm ∈ items) (hd : d ∈ extract_dependencies mm) : d ∈ listDeps items := by
  induction items with
  | nil => cases hs
  | cons a t ih =>
    rcases List.mem_cons.mp hs with rfl | hs'
    · rw [listDeps_cons_map]
      exact List.mem_append.mpr (Or.inl hd)
    · cases a with
      | str s' =>
        rw [listDeps_cons_str]
        exact List.mem_append.mpr (Or.inr (ih hs'))
      | map mm' =>
        rw [listDeps_cons_map]
        exact List.mem_append.mpr (Or.inr (ih hs'))
      | num n =>
        rw [listDeps_cons_num]
        exact ih hs'
      | bool b =>
        rw [listDeps_cons_bool]
        exact ih hs'
      | list l =>
        rw [listDeps_cons_list]
        exact ih hs'

/-! ### Structural invariants of extracted entities and relationships -/

/-- First character of an identifier; canonical identifiers of the six entity
categories start with six pairwise distinct characters. -/
def headChar (s : String) : Option Char :=
  s.data.head?

/-- Invariant satisfied by every entity the extractors create: deduplicated
dependencies, no position, and the first identifier character reveals whether
the category is output. -/
def entityOk (e : TerraformEntity) : Prop :=
  e.dependencies.Nodup ∧ e.position = none ∧
    ((e.category = "output" ∧ headChar e.id = some 'o') ∨
     (e.category ≠ "output" ∧ headChar e.id ≠ some 'o'))

/-- Invariant satisfied by every relationship the extractors append: its kind
is determined by the first character of its source identifier. -/
def relOk (r : Relationship) : Prop :=
  (r.type = "depends_on" ∧ headChar r.source ≠ some 'o') ∨
  (r.type = "references" ∧ headChar r.source = some 'o')

/-- Extracted dependency lists never contain duplicates. -/
theorem nodup_extract_dependencies (config : Config) :
    (extract_dependencies config).Nodup := by
  rw [extract_dependencies_def]
  exact nodup_pyDedup _

/-- Every entity inserted for a resource block is well-formed. -/
theorem resourceInserts_ok (resources : List TypedBlocks) (kv : String × TerraformEntity)
    (h : kv ∈ resourceInserts resources) : entityOk kv.2 := by
  rw [resourceInserts] at h
  simp only [List.mem_flatMap, List.mem_singleton] at h
  obtain ⟨resource, -, p, -, q, -, hkv⟩ := h
  subst hkv
  refine ⟨nodup_extract_dependencies q.2, rfl, Or.inr ⟨?_, ?_⟩⟩
  · rw [show (resourceEntry p.1 q).2.category = "resource" from rfl]
    decide
  · rw [show headChar (resourceEntry p.1 q).2.id = some 'r' from rfl]
    decide

/-- Every entity inserted for a data block is well-formed. -/
theorem dataInserts_ok (data_sources : List TypedBlocks) (kv : String × TerraformEntity)
    (h : kv ∈ dataInserts data_sources) : entityOk kv.2 := by
  rw [dataInserts] at h
  simp only [List.mem_flatMap, List.mem_singleton] at h
  obtain ⟨data, -, p, -, q, -, hkv⟩ := h
  subst hkv
  refine ⟨nodup_extract_dependencies q.2, rfl, Or.inr ⟨?_, ?_⟩⟩
  · rw [show (dataEntry p.1 q).2.category = "data" from rfl]
    decide
  · rw [show headChar (dataEntry p.1 q).2.id = some 'd' from rfl]
    decide

/-- Every entity inserted for a module block is well-formed. -/
theorem moduleInserts_ok (modules : List Blocks) (kv : String × TerraformEntity)
    (h : kv ∈ moduleInserts modules) : entityOk kv.2 := by
  rw [moduleInserts] at h
  simp only [List.mem_flatMap, List.mem_singleton] at h
  obtain ⟨module, -, q, -, hkv⟩ := h
  subst hkv
  refine ⟨nodup_extract_dependencies q.2, rfl, Or.inr ⟨?_, ?_⟩⟩
  · rw [show (moduleEntry q).2.category = "module" from rfl]
    decide
  · rw [show headChar (moduleEntry q).2.id = some 'm' from rfl]
    decide

/-- Every entity inserted for a variable block is well-formed. -/
theorem variableInserts_ok (vars : List Blocks) (kv : String × TerraformEntity)
    (h : kv ∈ variableInserts vars) : entityOk kv.2 := by
  rw [variableInserts] at h
  simp only [List.mem_flatMap, List.mem_singleton] at h
  obtain ⟨var, -, q, -, hkv⟩ := h
  subst hkv
  refine ⟨List.nodup_nil, rfl, Or.inr ⟨?_, ?_⟩⟩
  · rw [show (variableEntry q).2.category = "variable" from rfl]
    decide
  · rw [show headChar (variableEntry q).2.id = some 'v' from rfl]
    decide

/-- Every entity inserted for an output block is well-formed. -/
theorem outputInserts_ok (outputs : List Blocks) (kv : String × TerraformEntity)
    (h : kv ∈ outputInserts outputs) : entityOk kv.2 := by
  rw [outputInserts] at h
  simp only [List.mem_flatMap, List.mem_singleton] at h
  obtain ⟨output, -, q, -, hkv⟩ := h
  subst hkv
  exact ⟨nodup_extract_dependencies q.2, rfl, Or.inl ⟨rfl, rfl⟩⟩

/-- Every entity inserted for a provider block is well-formed. -/
theorem providerInserts_ok (providers : List Blocks) (kv : String × TerraformEntity)
    (h : kv ∈ providerInserts providers) : entityOk kv.2 := by
  rw [providerInserts] at h
  simp only [List.mem_flatMap, List.mem_singleton] at h
  obtain ⟨provider, -, q, -, hkv⟩ := h
  subst hkv
  refine ⟨List.nodup_nil, rfl, Or.inr ⟨?_, ?_⟩⟩
  · rw [show (providerEntry q).2.category = "provider" from rfl]
    decide
  · rw [show headChar (providerEntry q).2.id = some 'p' from rfl]
    decide

/-- Every entity inserted while parsing a file is well-formed. -/
theorem fileInserts_ok (f : TfFile) (kv : String × TerraformEntity)
    (h : kv ∈ fileInserts f) : entityOk kv.2 := by
  cases f with
  | malformed msg => cases h
  | ok parsed =>
    simp only [fileInserts, List.mem_append] at h
    rcases h with ((((h | h) | h) | h) | h) | h
    · cases hr : parsed.resource with
      | none => rw [hr] at h; cases h
      | some r => rw [hr] at h; exact resourceInserts_ok r kv h
    · cases hr : parsed.data with
      | none => rw [hr] at h; cases h
      | some d => rw [hr] at h; exact dataInserts_ok d kv h
    · cases hr : parsed.module with
      | none => rw [hr] at h; cases h
      | some m => rw [hr] at h; exact moduleInserts_ok m kv h
    · cases hr : parsed.«variable» with
      | none => rw [hr] at h; cases h
      | some v => rw [hr] at h; exact variableInserts_ok v kv h
    · cases hr : parsed.output with
      | none => rw [hr] at h; cases h
      | some o => rw [hr] at h; exact outputInserts_ok o kv h
    · cases hr : parsed.provider with
      | none => rw [hr] at h; cases h
      | some pr => rw [hr] at h; exact providerInserts_ok pr kv h

/-- Every relationship appended for a resource block is well-formed. -/
theorem resourceRels_ok (resources : List TypedBlocks) (r : Relationship)
    (h : r ∈ resourceRels resources) : relOk r := by
  rw [resourceRels] at h
  simp only [List.mem_flatMap] at h
  obtain ⟨resource, -, p, -, q, -, hr⟩ := h
  rw [resourceRelsOf] at hr
  obtain ⟨dep, -, hrel⟩ := List.mem_map.mp hr
  subst hrel
  refine Or.inl ⟨rfl, ?_⟩
  rw [show headChar ("resource." ++ p.1 ++ "." ++ q.1) = some 'r' from rfl]
  decide

/-- Every relationship appended for a data block is well-formed. -/
theorem dataRels_ok (data_sources : List TypedBlocks) (r : Relationship)
    (h : r ∈ dataRels data_sources) : relOk r := by
  rw [dataRels] at h
  simp only [List.mem_flatMap] at h
  obtain ⟨data, -, p, -, q, -, hr⟩ := h
  rw [dataRelsOf] at hr
  obtain ⟨dep, -, hrel⟩ := List.mem_map.mp hr
  subst hrel
  refine Or.inl ⟨rfl, ?_⟩
  rw [show headChar ("data." ++ p.1 ++ "." ++ q.1) = some 'd' from rfl]
  decide

/-- Every relationship appended for a module block is well-formed. -/
theorem moduleRels_ok (modules : List Blocks) (r : Relationship)
    (h : r ∈ moduleRels modules) : relOk r := by
  rw [moduleRels] at h
  simp only [List.mem_flatMap] at h
  obtain ⟨module, -, q, -, hr⟩ := h
  rw [moduleRelsOf] at hr
  obtain ⟨dep, -, hrel⟩ := List.mem_map.mp hr
  subst hrel
  refine Or.inl ⟨rfl, ?_⟩
  rw [show headChar ("module." ++ q.1) = some 'm' from rfl]
  decide

/-- Every relationship appended for an output block is well-formed. -/
theorem outputRels_ok (outputs : List Blocks) (r : Relationship)
    (h : r ∈ outputRels outputs) : relOk r := by
  rw [outputRels] at h
  simp only [List.mem_flatMap] at h
  obtain ⟨output, -, q, -, hr⟩ := h
  rw [outputRelsOf] at hr
  obtain ⟨dep, -, hrel⟩ := List.mem_map.mp hr
  subst hrel
  exact Or.inr ⟨rfl, rfl⟩

/-- Every relationship appended while parsing a file is well-formed. -/
theorem fileRels_ok (f : TfFile) (r : Relationship) (h : r ∈ fileRels f) : relOk r := by
  cases f with
  | malformed msg => cases h
  | ok parsed =>
    simp only [fileRels, List.mem_append] at h
    rcases h with ((h | h) | h) | h
    · cases hr : parsed.resource with
      | none => rw [hr] at h; cases h
      | some x => rw [hr] at h; exact resourceRels_ok x r h
    · cases hr : parsed.data with
      | none => rw [hr] at h; cases h
      | some x => rw [hr] at h; exact dataRels_ok x r h
    · cases hr : parsed.module with
      | none => rw [hr] at h; cases h
      | some x => rw [hr] at h; exact moduleRels_ok x r h
    · cases hr : parsed.output with
      | none => rw [hr] at h; cases h
      | some x => rw [hr] at h; exact outputRels_ok x r h

/-- Every entity of a parse result obtained from a state with well-formed
entities is well-formed. -/
theorem entities_ok_after (files : List TfFile) (st : TerraformParser)
    (hst : ∀ kv ∈ st.entities, entityOk kv.2) :
    ∀ kv ∈ (files.foldl parse_file st).entities, entityOk kv.2 := by
  intro kv h
  rw [foldl_parse_file_norm] at h
  rcases mem_dictInserts _ _ _ h with h | h
  · exact hst _ h
  · obtain ⟨f, -, hf⟩ := List.mem_flatMap.mp h
    exact fileInserts_ok f kv hf

/-- Every relationship of a parse result obtained from a state with
well-formed relationships is well-formed. -/
theorem rels_ok_after (files : List TfFile) (st : TerraformParser)
    (hst : ∀ r ∈ st.relationships, relOk r) :
    ∀ r ∈ (files.foldl parse_file st).relationships, relOk r := by
  intro r h
  rw [foldl_parse_file_norm] at h
  rcases List.mem_append.mp h with h | h
  · exact hst _ h
  · obtain ⟨f, -, hf⟩ := List.mem_flatMap.mp h
    exact fileRels_ok f r hf

/-- Two successive parse_directory calls on one fresh parser: the entity dict
is unchanged by the second call, while the relationship list is appended to
itself and its count doubles. -/
theorem two_calls (fs : FileSystem) (dir : String) :
    (parse_directory fs (parse_directory fs (TerraformParser.init dir)).1).2.entities
      = (parse_directory fs (TerraformParser.init dir)).2.entities ∧
    (parse_directory fs (parse_directory fs (TerraformParser.init dir)).1).2.relationships
      = (parse_directory fs (TerraformParser.init dir)).2.relationships ++
        (parse_directory fs (TerraformParser.init dir)).2.relationships ∧
    (parse_directory fs (parse_directory fs (TerraformParser.init dir)).1).2.metadata.total_files
      = (parse_directory fs (TerraformParser.init dir)).2.metadata.total_files ∧
    (parse_directory fs (parse_directory fs (TerraformParser.init dir)).1).2.metadata.total_entities
      = (parse_directory fs (TerraformParser.init dir)).2.metadata.total_entities ∧
    (parse_directory fs (parse_directory fs (TerraformParser.init dir)).1).2.metadata.total_relationships
      = 2 * (parse_directory fs (TerraformParser.init dir)).2.metadata.total_relationships := by
  simp only [parse_directory_norm, TerraformParser.init]
  have hidem := dictInserts_idem ((rglob_tf fs dir).flatMap fileInserts)
    ([] : List (String × TerraformEntity)) (by simp [keysOf])
  refine ⟨?_, ?_, ?_, ?_, ?_⟩
  · rw [hidem]
  · simp
  · trivial
  · rw [hidem]
  · simp [two_mul]

/-- Every entity of a parse result from a state with well-formed entities is
well-formed. -/
theorem result_entities_ok (fs : FileSystem) (st : TerraformParser)
    (hst : ∀ kv ∈ st.entities, entityOk kv.2) :
    ∀ e ∈ (parse_directory fs st).2.entities, entityOk e := by
  intro e he
  have he' : e ∈ ((rglob_tf fs st.terraform_dir).foldl parse_file st).entities.map Prod.snd := he
  obtain ⟨kv, hkv, rfl⟩ := List.mem_map.mp he'
  exact entities_ok_after _ st hst kv hkv

/-- Every relationship of a parse result from a state with well-formed
relationships is well-formed. -/
theorem result_rels_ok (fs : FileSystem) (st : TerraformParser)
    (hst : ∀ r ∈ st.relationships, relOk r) :
    ∀ r ∈ (parse_directory fs st).2.relationships, relOk r := by
  intro r hr
  have hr' : r ∈ ((rglob_tf fs st.terraform_dir).foldl parse_file st).relationships := hr
  exact rels_ok_after _ st hst r hr'

/-- The parser state after a call keeps well-formed entities. -/
theorem state_entities_ok (fs : FileSystem) (st : TerraformParser)
    (hst : ∀ kv ∈ st.entities, entityOk kv.2) :
    ∀ kv ∈ (parse_directory fs st).1.entities, entityOk kv.2 := by
  intro kv h
  have h' : kv ∈ ((rglob_tf fs st.terraform_dir).foldl parse_file st).entities := h
  exact entities_ok_after _ st hst kv h'

/-! ### Concrete directory fixtures used by counterexamples and witnesses -/

/-- Body of resource aws_vpc.main: no references. -/
def cfgVpc : Config := [("cidr_block", Value.str "10.0.0.0/16")]

/-- Body of resource aws_subnet.public: one interpolated shorthand reference. -/
def cfgSubnet : Config := [("vpc_id", Value.str "$\x7baws_vpc.main.id\x7d")]

/-- Body of output x: one bare shorthand reference. -/
def cfgOut : Config := [("value", Value.str "aws_subnet.public.id")]

/-- One well-formed file with two resources and an output. -/
def sampleFile : ParsedHcl :=
  { resource := some [[("aws_vpc", [("main", cfgVpc)])], [("aws_subnet", [("public", cfgSubnet)])]],
    output := some [[("x", cfgOut)]] }

/-- A file system with one directory named tf holding the sample file. -/
def sampleFs : FileSystem := { dirs := [("tf", [TfFile.ok sampleFile])], files := [] }

/-! ### Claims -/

/-- C1, counterexample: two successive parse_directory calls on the same parser
state do not produce identical GraphResults.  On the sample directory the first
call reports 2 relationships, the second call re-appends them and reports 4, so
the two result documents (and their JSON serializations) differ. -/
theorem C1_counterexample :
    (parse_directory sampleFs (TerraformParser.init "tf")).2.metadata.total_relationships = 2 ∧
    (parse_directory sampleFs
        (parse_directory sampleFs (TerraformParser.init "tf")).1).2.metadata.total_relationships
      = 4 ∧
    (parse_directory sampleFs (TerraformParser.init "tf")).2 ≠
      (parse_directory sampleFs (parse_directory sampleFs (TerraformParser.init "tf")).1).2 := by
  refine ⟨by decide, by decide, fun h => ?_⟩
  have h2 := congrArg (fun r : GraphResult => r.metadata.total_relationships) h
  exact absurd h2 (by decide)

/-- C1, amended: entities do not accumulate across calls - a second
parse_directory call on the same parser returns the same entity list and file
and entity counts - but relationships do accumulate: the second call returns
the first call's relationship list appended to itself, doubling the count, so
the two results coincide exactly when the directory yields no relationships. -/
theorem C1_amended (fs : FileSystem) (dir : String) :
    (parse_directory fs (parse_directory fs (TerraformParser.init dir)).1).2.entities
      = (parse_directory fs (TerraformParser.init dir)).2.entities ∧
    (parse_directory fs (parse_directory fs (TerraformParser.init dir)).1).2.relationships
      = (parse_directory fs (TerraformParser.init dir)).2.relationships ++
        (parse_directory fs (TerraformParser.init dir)).2.relationships ∧
    (parse_directory fs (parse_directory fs (TerraformParser.init dir)).1).2.metadata.total_files
      = (parse_directory fs (TerraformParser.init dir)).2.metadata.total_files ∧
    (parse_directory fs (parse_directory fs (TerraformParser.init dir)).1).2.metadata.total_entities
      = (parse_directory fs (TerraformParser.init dir)).2.metadata.total_entities ∧
    (parse_directory fs
        (parse_directory fs (TerraformParser.init dir)).1).2.metadata.total_relationships
      = 2 * (parse_directory fs (TerraformParser.init dir)).2.metadata.total_relationships :=
  two_calls fs dir

/-- C2, counterexample: the save variant does not persist the same document it
returns.  On the sample directory the persisted document has 2 relationships
while the returned one has 4, so the two JSON documents differ. -/
theorem C2_counterexample :
    (parse_terraform sampleFs "tf").1.metadata.total_relationships = 2 ∧
    (parse_terraform sampleFs "tf").2.metadata.total_relationships = 4 ∧
    (parse_terraform sampleFs "tf").1 ≠ (parse_terraform sampleFs "tf").2 := by
  refine ⟨by decide, by decide, fun h => ?_⟩
  have h2 := congrArg (fun r : GraphResult => r.metadata.total_relationships) h
  exact absurd h2 (by decide)

/-- C2, amended: parse_terraform persists and returns documents that agree on
entities, file count and entity count, but the returned document's
relationship list is the persisted one appended to itself (its count doubles),
because save_to_json runs parse_directory once and the return value comes from
a second call on the same accumulated parser.  The two documents coincide
exactly when there are no relationships. -/
theorem C2_amended (fs : FileSystem) (dir : String) :
    (parse_terraform fs dir).2.entities = (parse_terraform fs dir).1.entities ∧
    (parse_terraform fs dir).2.relationships
      = (parse_terraform fs dir).1.relationships ++ (parse_terraform fs dir).1.relationships ∧
    (parse_terraform fs dir).2.metadata.total_files
      = (parse_terraform fs dir).1.metadata.total_files ∧
    (parse_terraform fs dir).2.metadata.total_entities
      = (parse_terraform fs dir).1.metadata.total_entities ∧
    (parse_terraform fs dir).2.metadata.total_relationships
      = 2 * (parse_terraform fs dir).1.metadata.total_relationships :=
  two_calls fs dir

/-- A file system with no directories and one plain file. -/
def fsNoDirs : FileSystem := { dirs := [], files := ["plain.txt"] }

/-- C3, counterexample: extraction on a missing path does not fail - it
returns an ordinary empty GraphResult - and the service route answers an
existing non-directory path with a successful empty parse rather than any
DirectoryNotFound failure. -/
theorem C3_counterexample :
    (parse_directory fsNoDirs (TerraformParser.init "missing")).2 =
      { entities := [], relationships := [],
        metadata := { total_files := 0, total_entities := 0, total_relationships := 0 } } ∧
    parse_terraform_directory fsNoDirs "plain.txt" =
      Except.ok
        { entities := [], relationships := [],
          metadata := { total_files := 0, total_entities := 0, total_relationships := 0 } } :=
  ⟨rfl, rfl⟩

/-- C3, amended: for a path that does not exist or is not a directory,
parse_directory raises nothing and returns the empty GraphResult with
total_files = 0 (Path.rglob yields no files there); only the HTTP route layer
checks os.path.exists and maps a nonexistent path to an error response, while
an existing non-directory path still produces a successful empty result. -/
theorem C3_amended (fs : FileSystem) (path : String)
    (h : alookup fs.dirs path = none) :
    (parse_directory fs (TerraformParser.init path)).2 =
      { entities := [], relationships := [],
        metadata := { total_files := 0, total_entities := 0, total_relationships := 0 } } ∧
    (os_path_exists fs path = false →
      parse_terraform_directory fs path =
        Except.error ("Directory " ++ path ++ " does not exist")) := by
  constructor
  · simp [parse_directory, rglob_tf, TerraformParser.init, h]
  · intro hex
    simp [parse_terraform_directory, hex]

/-- C3, witness: the amended statement applied to the concrete empty file
system at a missing path. -/
theorem C3_witness :
    (parse_directory fsNoDirs (TerraformParser.init "missing")).2 =
      { entities := [], relationships := [],
        metadata := { total_files := 0, total_entities := 0, total_relationships := 0 } } ∧
    parse_terraform_directory fsNoDirs "missing" =
      Except.error ("Directory " ++ "missing" ++ " does not exist") := by
  have h := C3_amended fsNoDirs "missing" rfl
  exact ⟨h.1, h.2 (by decide)⟩

/-- C4, counterexample: reference-pattern scanning IS applied to the
depends_on entries.  For a block whose only attribute is the list
depends_on = [aws_vpc.main], the claim predicts exactly the verbatim set
holding aws_vpc.main and nothing else (there are no other attributes), but the
value loop also scans the depends_on list and adds resource.aws_vpc.main. -/
theorem C4_counterexample :
    extract_dependencies [("depends_on", Value.list [Value.str "aws_vpc.main"])] =
      ["aws_vpc.main", "resource.aws_vpc.main"] := by
  decide

/-- C4, amended: the computed dependency set equals the union of (a) the
string-valued depends_on entries taken verbatim and (b) the resolver applied
to every attribute value including the depends_on list itself, so depends_on
entries are additionally reference-scanned. -/
theorem C4_amended (config : Config) (d : String) :
    d ∈ extract_dependencies config ↔
      d ∈ dependsOnStrings config ∨ ∃ p ∈ config, d ∈ valueDeps p.2 := by
  rw [mem_extract_dependencies, mem_valuesDeps]

/-- Body of a resource whose attribute text references the resource itself. -/
def cfgSelf : Config := [("note", Value.str "aws_vpc.main.id")]

/-- A file declaring resource aws_vpc.main with a self-referential attribute. -/
def selfFile : ParsedHcl := { resource := some [[("aws_vpc", [("main", cfgSelf)])]] }

/-- A file system holding only the self-referential file. -/
def selfFs : FileSystem := { dirs := [("d", [TfFile.ok selfFile])], files := [] }

/-- C5, counterexample: an entity's dependencies can contain its own canonical
identifier.  The resource aws_vpc.main whose attribute text mentions
aws_vpc.main.id is extracted with its own id resource.aws_vpc.main in its
dependency list - nothing excludes the self-reference. -/
theorem C5_counterexample :
    (parse_directory selfFs (TerraformParser.init "d")).2.entities.map
        (fun e => (e.id, e.dependencies)) =
      [("resource.aws_vpc.main", ["resource.aws_vpc.main"])] := by
  decide

/-- C5, amended: the dependencies of every extracted entity are deduplicated
(the self-exclusion half of the claim is refuted by the counterexample). -/
theorem C5_amended (fs : FileSystem) (dir : String) (e : TerraformEntity)
    (he : e ∈ (parse_directory fs (TerraformParser.init dir)).2.entities) :
    e.dependencies.Nodup :=
  (result_entities_ok fs (TerraformParser.init dir)
    (by intro kv h; exact absurd h (List.not_mem_nil kv)) e he).1

/-- The entity extracted from the self-referential fixture. -/
def selfEntity : TerraformEntity :=
  { id := "resource.aws_vpc.main", type := "aws_vpc", category := "resource", name := "main",
    provider := some "aws", attributes := cfgSelf,
    dependencies := ["resource.aws_vpc.main"], position := none }

/-- C5, witness: the amended statement applied to the concrete entity of the
self-referential fixture. -/
theorem C5_witness : selfEntity.dependencies.Nodup :=
  C5_amended selfFs "d" selfEntity (List.Mem.head _)

/-- C6, counterexample: not every minimal one-occurrence string of a pattern
class resolves to a singleton.  The string data.aws_vpc.main is exactly one
match of the data pattern, yet the resolver returns two identifiers, because
the cloud-prefix shorthand pattern also matches the embedded aws_vpc.main. -/
theorem C6_counterexample :
    find_references "data.aws_vpc.main" = ["resource.aws_vpc.main", "data.aws_vpc.main"] := by
  decide

/-- C6, amended: each of the seven pattern classes has minimal one-occurrence
strings that resolve to exactly the expected singleton (for the data and
explicit-resource classes, ones whose type does not start with a cloud
shorthand); minimal strings whose embedded type carries a cloud prefix can
additionally yield the shorthand resource identifier, as the counterexample
shows. -/
theorem C6_amended :
    find_references "aws_vpc.main" = ["resource.aws_vpc.main"] ∧
    find_references "resource.mytype.myname" = ["resource.mytype.myname"] ∧
    find_references "data.mytype.myname" = ["data.mytype.myname"] ∧
    find_references "module.myname" = ["module.myname"] ∧
    find_references "var.myname" = ["var.myname"] ∧
    find_references "local.myname" = ["local.myname"] ∧
    find_references "output.myname" = ["output.myname"] := by
  decide

/-- C7, counterexample: a reference inside a sequence nested within another
sequence is NOT found: the list items loop handles only string and dict items,
so the nested list and everything inside it is skipped and the dependency set
is empty where the claim requires resource.aws_vpc.main. -/
theorem C7_counterexample :
    extract_dependencies [("a", Value.list [Value.list [Value.str "aws_vpc.main"]])] = [] := by
  decide

/-- C7, amended: the resolver recurses through nested mappings at any depth
and scans strings that are direct items of a sequence, but a sequence nested
directly within another sequence is skipped entirely; non-string primitive
leaves contribute nothing. -/
theorem C7_amended :
    (∀ (config : Config) (k : String) (inner : Config) (d : String),
        (k, Value.map inner) ∈ config → d ∈ extract_dependencies inner →
          d ∈ extract_dependencies config) ∧
    (∀ (config : Config) (k : String) (items : List Value) (s d : String),
        (k, Value.list items) ∈ config → Value.str s ∈ items → d ∈ find_references s →
          d ∈ extract_dependencies config) ∧
    (∀ (l t : List Value), listDeps (Value.list l :: t) = listDeps t) ∧
    (∀ n : Int, valueDeps (Value.num n) = []) ∧
    (∀ b : Bool, valueDeps (Value.bool b) = []) := by
  refine ⟨?_, ?_, listDeps_cons_list, valueDeps_num, valueDeps_bool⟩
  · intro config k inner d hmem hd
    rw [mem_extract_dependencies]
    refine Or.inr ((mem_valuesDeps config d).mpr ⟨(k, Value.map inner), hmem, ?_⟩)
    rw [show (k, Value.map inner).2 = Value.map inner from rfl, valueDeps_map]
    exact hd
  · intro config k items s d hmem hs hd
    rw [mem_extract_dependencies]
    refine Or.inr ((mem_valuesDeps config d).mpr ⟨(k, Value.list items), hmem, ?_⟩)
    rw [show (k, Value.list items).2 = Value.list items from rfl, valueDeps_list]
    exact mem_listDeps_of_str items s d hs hd

/-- C7, witness: the amended recursion statements applied to one nested
mapping and one sequence with a string item. -/
theorem C7_witness :
    "resource.aws_vpc.main" ∈
      extract_dependencies [("outer", Value.map [("inner", Value.str "aws_vpc.main.id")])] ∧
    "var.x" ∈ extract_dependencies [("lst", Value.list [Value.str "var.x"])] :=
  ⟨C7_amended.1 _ "outer" [("inner", Value.str "aws_vpc.main.id")] _
      (List.Mem.head _) (by decide),
   C7_amended.2.1 _ "lst" [Value.str "var.x"] "var.x" _
      (List.Mem.head _) (List.Mem.head _) (by decide)⟩

/-- A file system with a single directory holding the given files. -/
def dirFs (dir : String) (files : List TfFile) : FileSystem :=
  { dirs := [(dir, files)], files := [] }

/-- A syntactically well-formed file (hcl2.loads accepts it) whose resource
carries a number-valued depends_on attribute. -/
def badDependsFile : ParsedHcl :=
  { resource := some [[("aws_vpc", [("main", [("depends_on", Value.num 5)])])]] }

/-- C8, counterexample: extraction does not always return without raising.
For a directory holding this well-formed file together with one
invalid-syntax file, the depends_on iteration at parser.py line 246 raises a
TypeError that the except clause at line 85 (LarkError/JSONDecodeError only)
does not catch, so the whole parse_directory call aborts instead of returning
a GraphResult with total_files = 2. -/
theorem C8_counterexample :
    parse_directory_raises
      (dirFs "d" [TfFile.ok badDependsFile, TfFile.malformed "oops"]) "d" = true := by
  decide

/-- C8, amended: for a directory holding one well-formed file and one file
with invalid syntax, provided the well-formed file's extraction does not hit
the uncaught TypeError of a number- or boolean-valued depends_on (the
malformed file never can - its load error is caught), extraction returns
without raising, in either file order, with total_files = 2 and entities,
relationships and content counts identical to extracting the well-formed file
alone. -/
theorem C8_amended (g : ParsedHcl) (msg : String) (dir : String)
    (_hok : parse_file_raises (TfFile.ok g) = false) :
    (parse_directory (dirFs dir [TfFile.ok g, TfFile.malformed msg])
        (TerraformParser.init dir)).2.metadata.total_files = 2 ∧
    (parse_directory (dirFs dir [TfFile.malformed msg, TfFile.ok g])
        (TerraformParser.init dir)).2.metadata.total_files = 2 ∧
    (parse_directory (dirFs dir [TfFile.ok g, TfFile.malformed msg])
        (TerraformParser.init dir)).2.entities =
      (parse_directory (dirFs dir [TfFile.ok g]) (TerraformParser.init dir)).2.entities ∧
    (parse_directory (dirFs dir [TfFile.malformed msg, TfFile.ok g])
        (TerraformParser.init dir)).2.entities =
      (parse_directory (dirFs dir [TfFile.ok g]) (TerraformParser.init dir)).2.entities ∧
    (parse_directory (dirFs dir [TfFile.ok g, TfFile.malformed msg])
        (TerraformParser.init dir)).2.relationships =
      (parse_directory (dirFs dir [TfFile.ok g]) (TerraformParser.init dir)).2.relationships ∧
    (parse_directory (dirFs dir [TfFile.malformed msg, TfFile.ok g])
        (TerraformParser.init dir)).2.relationships =
      (parse_directory (dirFs dir [TfFile.ok g]) (TerraformParser.init dir)).2.relationships ∧
    (parse_directory (dirFs dir [TfFile.ok g, TfFile.malformed msg])
        (TerraformParser.init dir)).2.metadata.total_entities =
      (parse_directory (dirFs dir [TfFile.ok g])
        (TerraformParser.init dir)).2.metadata.total_entities ∧
    (parse_directory (dirFs dir [TfFile.malformed msg, TfFile.ok g])
        (TerraformParser.init dir)).2.metadata.total_entities =
      (parse_directory (dirFs dir [TfFile.ok g])
        (TerraformParser.init dir)).2.metadata.total_entities ∧
    (parse_directory (dirFs dir [TfFile.ok g, TfFile.malformed msg])
        (TerraformParser.init dir)).2.metadata.total_relationships =
      (parse_directory (dirFs dir [TfFile.ok g])
        (TerraformParser.init dir)).2.metadata.total_relationships ∧
    (parse_directory (dirFs dir [TfFile.malformed msg, TfFile.ok g])
        (TerraformParser.init dir)).2.metadata.total_relationships =
      (parse_directory (dirFs dir [TfFile.ok g])
        (TerraformParser.init dir)).2.metadata.total_relationships := by
  have hgb : rglob_tf (dirFs dir [TfFile.ok g, TfFile.malformed msg]) dir
      = [TfFile.ok g, TfFile.malformed msg] := by
    simp [dirFs, rglob_tf, alookup]
  have hbg : rglob_tf (dirFs dir [TfFile.malformed msg, TfFile.ok g]) dir
      = [TfFile.malformed msg, TfFile.ok g] := by
    simp [dirFs, rglob_tf, alookup]
  have hgg : rglob_tf (dirFs dir [TfFile.ok g]) dir = [TfFile.ok g] := by
    simp [dirFs, rglob_tf, alookup]
  have hmal : ∀ st : TerraformParser, parse_file st (TfFile.malformed msg) = st :=
    fun st => rfl
  refine ⟨?_, ?_, ?_, ?_, ?_, ?_, ?_, ?_, ?_, ?_⟩ <;>
    simp [parse_directory, TerraformParser.init, hgb, hbg, hgg, hmal]

/-- C8, witness: the amended isolation statement applied to the sample file
(which has list- and string-free depends_on handling, so its extraction does
not raise) next to one malformed file. -/
theorem C8_witness :
    (parse_directory (dirFs "tf" [TfFile.ok sampleFile, TfFile.malformed "x"])
        (TerraformParser.init "tf")).2.metadata.total_files = 2 ∧
    (parse_directory (dirFs "tf" [TfFile.ok sampleFile, TfFile.malformed "x"])
        (TerraformParser.init "tf")).2.entities =
      (parse_directory (dirFs "tf" [TfFile.ok sampleFile])
        (TerraformParser.init "tf")).2.entities :=
  ⟨(C8_amended sampleFile "x" "tf" (by decide)).1,
   (C8_amended sampleFile "x" "tf" (by decide)).2.2.1⟩

/-- C9: in every GraphResult produced by extraction, a relationship whose
source entity is an output entity has kind references, and a relationship
whose source entity is a resource, data or module entity has kind depends_on
(the code stores the kind under the dict key named type). -/
theorem C9_edge_kinds (fs : FileSystem) (dir : String) (r : Relationship) (e : TerraformEntity)
    (hr : r ∈ (parse_directory fs (TerraformParser.init dir)).2.relationships)
    (he : e ∈ (parse_directory fs (TerraformParser.init dir)).2.entities)
    (hid : e.id = r.source) :
    (e.category = "output" → r.type = "references") ∧
    ((e.category = "resource" ∨ e.category = "data" ∨ e.category = "module") →
      r.type = "depends_on") := by
  have hrok : relOk r := result_rels_ok fs (TerraformParser.init dir)
    (by intro x h; exact absurd h (List.not_mem_nil x)) r hr
  have heok : entityOk e := result_entities_ok fs (TerraformParser.init dir)
    (by intro kv h; exact absurd h (List.not_mem_nil kv)) e he
  constructor
  · intro hcat
    have hho : headChar e.id = some 'o' := by
      rcases heok.2.2 with ⟨-, h⟩ | ⟨hne, -⟩
      · exact h
      · exact absurd hcat hne
    rcases hrok with ⟨-, hne⟩ | ⟨ht, -⟩
    · exact absurd (hid ▸ hho) hne
    · exact ht
  · intro hcat
    have hnc : e.category ≠ "output" := by
      rcases hcat with h | h | h <;> rw [h] <;> decide
    have hho : headChar e.id ≠ some 'o' := by
      rcases heok.2.2 with ⟨hc, -⟩ | ⟨-, h⟩
      · exact absurd hc hnc
      · exact h
    rcases hrok with ⟨ht, -⟩ | ⟨-, hiso⟩
    · exact ht
    · exact absurd hiso (hid ▸ hho)

/-- The depends_on relationship of the sample directory. -/
def relDep : Relationship :=
  { source := "resource.aws_subnet.public", target := "resource.aws_vpc.main",
    type := "depends_on" }

/-- The references relationship of the sample directory. -/
def relRef : Relationship :=
  { source := "output.x", target := "resource.aws_subnet.public", type := "references" }

/-- The subnet entity of the sample directory. -/
def subnetEntity : TerraformEntity :=
  { id := "resource.aws_subnet.public", type := "aws_subnet", category := "resource",
    name := "public", provider := some "aws", attributes := cfgSubnet,
    dependencies := ["resource.aws_vpc.main"], position := none }

/-- The output entity of the sample directory. -/
def outEntity : TerraformEntity :=
  { id := "output.x", type := "output", category := "output", name := "x",
    provider := none, attributes := cfgOut,
    dependencies := ["resource.aws_subnet.public"], position := none }

/-- C9, witness: the edge-kind statement applied to the two concrete
relationships of the sample directory. -/
theorem C9_witness : relDep.type = "depends_on" ∧ relRef.type = "references" :=
  ⟨(C9_edge_kinds sampleFs "tf" relDep subnetEntity (by decide)
      (List.Mem.tail _ (List.Mem.head _)) rfl).2 (Or.inl rfl),
   (C9_edge_kinds sampleFs "tf" relRef outEntity (by decide)
      (List.Mem.tail _ (List.Mem.tail _ (List.Mem.head _))) rfl).1 rfl⟩

/-- C10: parse_terraform has save_to_json invoke calculate_layout on the still
empty parser (a no-op) before parse_directory populates the registry, so every
entity in the persisted document and in the returned document has position
None. -/
theorem C10_layout_before_parse (fs : FileSystem) (dir : String) :
    calculate_layout (TerraformParser.init dir) = TerraformParser.init dir ∧
    (∀ e ∈ (parse_terraform fs dir).1.entities, e.position = none) ∧
    (∀ e ∈ (parse_terraform fs dir).2.entities, e.position = none) := by
  refine ⟨rfl, ?_, ?_⟩
  · intro e he
    exact (result_entities_ok fs (TerraformParser.init dir)
      (by intro kv h; exact absurd h (List.not_mem_nil kv)) e he).2.1
  · intro e he
    exact (result_entities_ok fs (parse_directory fs (TerraformParser.init dir)).1
      (state_entities_ok fs (TerraformParser.init dir)
        (by intro kv h; exact absurd h (List.not_mem_nil kv))) e he).2.1

/-- The vpc entity of the sample directory. -/
def vpcEntity : TerraformEntity :=
  { id := "resource.aws_vpc.main", type := "aws_vpc", category := "resource", name := "main",
    provider := some "aws", attributes := cfgVpc, dependencies := [], position := none }

/-- C10, witness: the no-position statement applied to the first entity of
both the persisted and returned sample documents. -/
theorem C10_witness : vpcEntity.position = none ∧ vpcEntity.position = none :=
  ⟨(C10_layout_before_parse sampleFs "tf").2.1 vpcEntity (List.Mem.head _),
   (C10_layout_before_parse sampleFs "tf").2.2 vpcEntity (List.Mem.head _)⟩
